import Mathlib

/-!
# Verification of the cntx session-migration core

A shallow embedding of `src/core/migrate.ts` (session/workspace migration for
Cursor chat history) together with the storage and path primitives it uses.

* `migrateSession`, `migrateSessions`, `migrateWorkspace`,
  `copyBubbleDataInGlobalStorage` and `generateSessionId` are translated
  directly from `src/core/migrate.ts`.
* `normalizePath` / `pathsEqual` are translated from `src/lib/platform.ts`
  (the POSIX branch; the platform is fixed to non-Windows).
* The storage primitives `getComposerData`, `updateComposerData`,
  `findWorkspaceForSession` and `findWorkspaceByPath` are not present in the
  sources; they are modelled from the specification (sections 4.2 and 4.3:
  StoreLocator and RecordArrayStore).

State is passed explicitly through an `Env` value: the collection of
workspace stores (each a key-value table whose composer-data key holds a JSON
array of session records), the global store's `cursorDiskKV` table, and the
stream of random nibbles consumed by `Math.random`-based id generation.
-/

set_option autoImplicit false

namespace Cntx

/-! ## Generic list helpers (JS `findIndex`, `filter((_, i) => i !== idx)`,
counting, association-list get/set used for key-value tables) -/

/-- JS `Array.findIndex` (with `none` for `-1`). -/
def findIndexOpt {α : Type} (p : α → Bool) : List α → Option Nat
  | [] => none
  | a :: as => if p a then some 0 else (findIndexOpt p as).map (· + 1)

/-- `filter((_, i) => i !== idx)`: remove the element at index `idx`. -/
def removeIndex {α : Type} : List α → Nat → List α
  | [], _ => []
  | _ :: as, 0 => as
  | a :: as, n + 1 => a :: removeIndex as n

/-- Number of elements satisfying a boolean predicate. -/
def countB {α : Type} (p : α → Bool) : List α → Nat
  | [] => 0
  | a :: as => (if p a then 1 else 0) + countB p as

/-- First value bound to key `k` in an association list. -/
def assocGet {α : Type} : List (String × α) → String → Option α
  | [], _ => none
  | (k1, v1) :: rest, k => if k1 = k then some v1 else assocGet rest k

/-- Bind key `k` to `v`: replace the first binding of `k`, or append a new
binding (SQL `INSERT OR REPLACE` on a unique key / JS `Map.set`). -/
def assocSet {α : Type} : List (String × α) → String → α → List (String × α)
  | [], k, v => [(k, v)]
  | (k1, v1) :: rest, k, v =>
    if k1 = k then (k, v) :: rest else (k1, v1) :: assocSet rest k v

/-- `leadsWith p l` holds when list `p` is an initial segment of list `l`. -/
def leadsWith {α : Type} [DecidableEq α] : List α → List α → Bool
  | [], _ => true
  | _ :: _, [] => false
  | a :: as, b :: bs => a = b && leadsWith as bs

/-- SQL `LIKE 'p%'`: string `k` begins with string `p`. -/
def strLike (p k : String) : Bool := leadsWith p.data k.data

/-- JS `String.split(c)` on a character list (total split, keeps empty
segments, result is always nonempty). -/
def splitOnChar (c : Char) : List Char → List (List Char)
  | [] => [[]]
  | a :: as =>
    let r := splitOnChar c as
    if a = c then [] :: r
    else
      match r with
      | seg :: segs => (a :: seg) :: segs
      | [] => [[a]]

/-! ## Path model — from `src/lib/platform.ts` -/

/-- Models Node `path.join(a, b)` for the shapes used by `normalizePath`
(joining the home directory with the remainder of a `~` path). -/
def joinPath (a b : String) : String :=
  match b.data with
  | [] => a
  | '/' :: _ => a ++ b
  | _ :: _ => a ++ "/" ++ b

/-- Drop leading occurrences of `c` but always keep at least one element
(one step of the trailing-separator stripping loop, on the reversed list:
`while (s.length > 1 && s.endsWith(c)) s = s.slice(0, -1)`). -/
def dropLeadKeepOne (c : Char) : List Char → List Char
  | a :: b :: rest => if a = c then dropLeadKeepOne c (b :: rest) else a :: b :: rest
  | l => l

/-- `normalizePath` from `src/lib/platform.ts`: expand a leading `~` to the
home directory, then strip trailing `/` and then trailing `\` (keeping a
root of length 1). `home` models `os.homedir()`. -/
def normalizePath (home p : String) : String :=
  let n := match p.data with
    | '~' :: rest => joinPath home (String.mk rest)
    | _ => p
  let r1 := dropLeadKeepOne '/' n.data.reverse
  let r2 := dropLeadKeepOne '\\' r1
  String.mk r2.reverse

/-- `pathsEqual` from `src/lib/platform.ts`, non-Windows branch:
normalized paths compared case-sensitively. -/
def pathsEqual (home p1 p2 : String) : Bool :=
  normalizePath home p1 = normalizePath home p2

/-! ## Data model -/

/-- One session record inside a workspace store's composer-data array.
`composerId` is the record's identifier field (`none` models a record whose
`composerId` is missing or not a string); `payload` stands for all other
JSON fields, which migration carries along unchanged (the
`JSON.parse(JSON.stringify(...))` deep clone is the identity on plain
data). -/
structure Session where
  composerId : Option String
  payload : Nat
deriving DecidableEq, Repr

/-- The value of a workspace store's composer-data key: the record array plus
the observed wire-shape information that `updateComposerData` threads back
(`isNewFormat` and the opaque `rawData` hint). -/
structure ComposerData where
  composers : List Session
  isNewFormat : Bool
  rawData : Option Nat
deriving DecidableEq, Repr

/-- A workspace store: its associated workspace path (from
`workspace.json`) and the path of its backing database file. -/
structure Workspace where
  path : String
  dbPath : String
deriving DecidableEq, Repr

/-- A header entry of `fullConversationHeadersOnly` in a global
`composerData:` value. `bubbleId` is the referenced content-item id
(`none` models a missing id; the empty string is also JS-falsy);
`hpayload` stands for the remaining fields (`type`, `serverBubbleId`, ...)
which the rewrite carries along via object spread. -/
structure Header where
  bubbleId : Option String
  hpayload : Nat
deriving DecidableEq, Repr

/-- A JSON value stored in the global store's `cursorDiskKV` table, with the
fields the migration code reads or writes; `payload` stands for the rest.
`composerData:` rows use `composerId` and `fullConversationHeadersOnly`,
`bubbleId:` rows use `bubbleId`. -/
structure GVal where
  composerId : Option String
  bubbleId : Option String
  fullConversationHeadersOnly : Option (List Header)
  payload : Nat
deriving DecidableEq, Repr

/-- The world state threaded through the migration functions:
the home directory, the known workspaces, each workspace database's
composer-data key (`assocGet env.dbs dbPath = none` models a store without
the key — zero records), whether the global store file exists, the global
store's `cursorDiskKV` table, and the stream of random nibbles that models
successive `(Math.random() * 16) | 0` draws. -/
structure Env where
  home : String
  workspaces : List Workspace
  dbs : List (String × ComposerData)
  globalExists : Bool
  globalKV : List (String × GVal)
  idStream : List Nat
deriving DecidableEq, Repr

/-- Migration mode. -/
inductive Mode where
  | move
  | copy
deriving DecidableEq, Repr

/-- The errors thrown by the migration core (`src/lib/errors.ts` classes plus
the generic `Error` used for a source workspace without composer data).
The TypeScript results store `err.message`; the result model carries the
structured error value instead, from which the message is a function. -/
inductive MErr where
  | sessionNotFound (id : String)
  | workspaceNotFound (path : String)
  | sameWorkspace (path : String)
  | noSessionsFound (path : String)
  | destinationHasSessions (path : String) (count : Nat)
  | genericError (msg : String)
deriving DecidableEq, Repr

/-- `SessionMigrationResult` from `src/lib/types.ts`. -/
structure SessionMigrationResult where
  success : Bool
  sessionId : String
  sourceWorkspace : String
  destinationWorkspace : String
  mode : Mode
  newSessionId : Option String
  error : Option MErr
  dryRun : Bool
deriving DecidableEq, Repr

/-- `WorkspaceMigrationResult` from `src/lib/types.ts`. -/
structure WorkspaceMigrationResult where
  success : Bool
  source : String
  destination : String
  mode : Mode
  totalSessions : Nat
  successCount : Nat
  failureCount : Nat
  results : List SessionMigrationResult
  dryRun : Bool
deriving DecidableEq, Repr

/-- Per-session options (`Omit<MigrateSessionOptions, 'sessionIds'>`);
`dataPath` is implicit in `Env`, `force` is carried but unused by the core. -/
structure SessionOpts where
  destination : String
  mode : Mode
  dryRun : Bool
  force : Bool
deriving DecidableEq, Repr

/-- `MigrateSessionOptions` from `src/lib/types.ts`. -/
structure MigrateSessionOptions where
  sessionIds : List String
  destination : String
  mode : Mode
  dryRun : Bool
  force : Bool
deriving DecidableEq, Repr

/-- `MigrateWorkspaceOptions` from `src/lib/types.ts`. -/
structure MigrateWorkspaceOptions where
  source : String
  destination : String
  mode : Mode
  dryRun : Bool
  force : Bool
deriving DecidableEq, Repr

/-! ## Identifier generation — `generateSessionId` from `src/core/migrate.ts` -/

/-- The UUID v4 template `'xxxxxxxx-xxxx-4xxx-yxxx-xxxxxxxxxxxx'`. -/
def uuidTemplate : List Char := "xxxxxxxx-xxxx-4xxx-yxxx-xxxxxxxxxxxx".data

/-- `v.toString(16)` for a nibble: `0`-`9`, `a`-`f`. -/
def hexDigit (n : Nat) : Char :=
  if n < 10 then Char.ofNat (48 + n) else Char.ofNat (87 + n)

/-- Walk the template; each `x` or `y` consumes one random nibble
`r = (Math.random() * 16) | 0` from the stream (modelled by the head of the
nibble list, taken mod 16). `x` becomes `r` in hex, `y` becomes
`(r & 0x3) | 0x8`. -/
def genIdAux : List Char → List Nat → List Char × List Nat
  | [], s => ([], s)
  | c :: cs, s =>
    if c = 'x' then
      let r := s.headD 0 % 16
      let p := genIdAux cs s.tail
      (hexDigit r :: p.1, p.2)
    else if c = 'y' then
      let r := s.headD 0 % 16
      let p := genIdAux cs s.tail
      (hexDigit (r % 4 + 8) :: p.1, p.2)
    else
      let p := genIdAux cs s
      (c :: p.1, p.2)

/-- `generateSessionId` from `src/core/migrate.ts`: a UUID v4 shaped string
whose 31 variable nibbles come from the (non-cryptographic) `Math.random`
stream. Returns the id and the unconsumed remainder of the stream. -/
def generateSessionId (s : List Nat) : String × List Nat :=
  let p := genIdAux uuidTemplate s
  (String.mk p.1, p.2)

/-! ## Storage primitives — modelled from the spec (missing from `src/`) -/

/-- Modelled from the spec: `getComposerData` (section 4.3,
RecordArrayStore read) is absent from the sources. It reads the store's
composer-data key: the record array together with the observed shape hint;
absence of the key means no composer data. -/
def getComposerData (env : Env) (dbPath : String) : Option ComposerData :=
  assocGet env.dbs dbPath

/-- Modelled from the spec: `updateComposerData` (section 4.3,
RecordArrayStore write) is absent from the sources. It replaces the store's
whole record array in one write, threading the shape hint back. -/
def updateComposerData (env : Env) (dbPath : String) (composers : List Session)
    (isNewFormat : Bool) (rawData : Option Nat) : Env :=
  { env with dbs := assocSet env.dbs dbPath ⟨composers, isNewFormat, rawData⟩ }

/-- `true` when the record with identifier `sid` is this session
(`s.composerId === sessionId` in JS: a missing or non-string id never
matches). -/
def sessionMatches (sid : String) (s : Session) : Bool :=
  s.composerId = some sid

/-- Modelled from the spec: `findWorkspaceForSession` (section 4.2,
StoreLocator `locateBySource`) is absent from the sources. It scans all
known stores' arrays, in order, for a record matching the identifier and
returns the first owning store. -/
def findWorkspaceForSession (env : Env) (sid : String) : Option Workspace :=
  env.workspaces.find? fun w =>
    match getComposerData env w.dbPath with
    | some cd => cd.composers.any (sessionMatches sid)
    | none => false

/-- Modelled from the spec: `findWorkspaceByPath` (section 4.2, StoreLocator
`locateByPath`) is absent from the sources. It returns the first store whose
associated workspace path equals the given path after normalization. -/
def findWorkspaceByPath (env : Env) (p : String) : Option Workspace :=
  env.workspaces.find? fun w => pathsEqual env.home w.path p

/-! ## Content replication — `copyBubbleDataInGlobalStorage` -/

/-- The header rewrite loop of `copyBubbleDataInGlobalStorage` (step 1):
for each header with a JS-truthy `bubbleId`, draw a fresh id, record the
old-to-new mapping, and emit the header with its `bubbleId` replaced;
headers without a truthy `bubbleId` are dropped. Returns the accumulated
bubble-id map, the new header list, and the remaining nibble stream. -/
def genHeaders (m : List (String × String)) :
    List Header → List Nat → List (String × String) × List Header × List Nat
  | [], s => (m, [], s)
  | h :: hs, s =>
    match h.bubbleId with
    | some b =>
      if b = "" then genHeaders m hs s
      else
        let p := generateSessionId s
        let q := genHeaders (assocSet m b p.1) hs p.2
        (q.1, { h with bubbleId := some p.1 } :: q.2.1, q.2.2)
    | none => genHeaders m hs s

/-- The bubble copy loop of `copyBubbleDataInGlobalStorage` (step 2): for
each row selected by `key LIKE 'bubbleId:<oldComposerId>:%'`, extract the
old bubble id as `key.split(':')[2]` (skipping JS-falsy results), reuse the
mapped new id or draw a fresh one, and insert the value with its `bubbleId`
replaced under `bubbleId:<newComposerId>:<newBubbleId>`. -/
def copyBubbles (newComposerId : String) :
    List (String × GVal) → List (String × String) → List (String × GVal) →
    List Nat → List (String × String) × List (String × GVal) × List Nat
  | [], m, kv, s => (m, kv, s)
  | (k, v) :: rest, m, kv, s =>
    match (splitOnChar ':' k.data).get? 2 with
    | none => copyBubbles newComposerId rest m kv s
    | some obl =>
      if obl = [] then copyBubbles newComposerId rest m kv s
      else
        let ob := String.mk obl
        match assocGet m ob with
        | some nb =>
          copyBubbles newComposerId rest m
            (assocSet kv ("bubbleId:" ++ newComposerId ++ ":" ++ nb)
              { v with bubbleId := some nb }) s
        | none =>
          let p := generateSessionId s
          copyBubbles newComposerId rest (assocSet m ob p.1)
            (assocSet kv ("bubbleId:" ++ newComposerId ++ ":" ++ p.1)
              { v with bubbleId := some p.1 }) p.2

/-- `copyBubbleDataInGlobalStorage` from `src/core/migrate.ts`: duplicate a
session's global-storage data under new ids. If the global store file does
not exist, return an empty map and change nothing. Otherwise copy the
`composerData:<oldComposerId>` row under the new composer id with its
`composerId` updated and its header list rewritten to freshly generated
bubble ids, then copy every `bubbleId:<oldComposerId>:<b>` row under
`bubbleId:<newComposerId>:<newB>` with its `bubbleId` field updated.
Returns the old-to-new bubble-id map and the updated state. -/
def copyBubbleDataInGlobalStorage (env : Env) (oldComposerId newComposerId : String) :
    List (String × String) × Env :=
  if env.globalExists then
    let step1 :=
      match assocGet env.globalKV ("composerData:" ++ oldComposerId) with
      | some cd =>
        let oldHeaders := cd.fullConversationHeadersOnly.getD []
        let g := genHeaders [] oldHeaders env.idStream
        let cd2 := { cd with composerId := some newComposerId,
                             fullConversationHeadersOnly := some g.2.1 }
        (g.1, assocSet env.globalKV ("composerData:" ++ newComposerId) cd2, g.2.2)
      | none => ([], env.globalKV, env.idStream)
    let rows := step1.2.1.filter fun r =>
      strLike ("bubbleId:" ++ oldComposerId ++ ":") r.1
    let c := copyBubbles newComposerId rows step1.1 step1.2.1 step1.2.2
    (c.1, { env with globalKV := c.2.1, idStream := c.2.2 })
  else ([], env)

/-! ## Session migration — `migrateSession` from `src/core/migrate.ts` -/

/-- The body of `migrateSession`'s `try` block (the mutation phase): read
both arrays, locate the session in the source array, then either move it
(remove from source, append to destination) or copy it (generate a new id,
replicate global data, append the re-identified deep copy to the
destination, leaving the source array unwritten). Errors thrown inside the
block are returned on the left; the state at the throw point is returned
alongside. -/
def migrateSessionBody (env : Env) (sessionId : String) (mode : Mode)
    (sourceWorkspace normalizedDest srcDbPath destDbPath : String) :
    Except MErr SessionMigrationResult × Env :=
  let sourceResult := getComposerData env srcDbPath
  let destResult := getComposerData env destDbPath
  match sourceResult with
  | none => (.error (.genericError "Source workspace has no composer data"), env)
  | some srcCd =>
    match findIndexOpt (sessionMatches sessionId) srcCd.composers with
    | none => (.error (.sessionNotFound sessionId), env)
    | some idx =>
      let sessionToMigrate := srcCd.composers.getD idx ⟨none, 0⟩
      match mode with
      | .move =>
        let newSourceComposers := removeIndex srcCd.composers idx
        let env1 := updateComposerData env srcDbPath newSourceComposers
          srcCd.isNewFormat srcCd.rawData
        let destComposers := match destResult with
          | some d => d.composers
          | none => []
        let env2 := updateComposerData env1 destDbPath
          (destComposers ++ [sessionToMigrate])
          ((destResult.map ComposerData.isNewFormat).getD srcCd.isNewFormat)
          (destResult.bind ComposerData.rawData)
        (.ok { success := true, sessionId := sessionId,
               sourceWorkspace := sourceWorkspace,
               destinationWorkspace := normalizedDest, mode := .move,
               newSessionId := none, error := none, dryRun := false }, env2)
      | .copy =>
        let p := generateSessionId env.idStream
        let envA := { env with idStream := p.2 }
        let q := copyBubbleDataInGlobalStorage envA sessionId p.1
        let copiedSession := { sessionToMigrate with composerId := some p.1 }
        let destComposers := match destResult with
          | some d => d.composers
          | none => []
        let env2 := updateComposerData q.2 destDbPath
          (destComposers ++ [copiedSession])
          ((destResult.map ComposerData.isNewFormat).getD srcCd.isNewFormat)
          (destResult.bind ComposerData.rawData)
        (.ok { success := true, sessionId := sessionId,
               sourceWorkspace := sourceWorkspace,
               destinationWorkspace := normalizedDest, mode := .copy,
               newSessionId := some p.1, error := none, dryRun := false }, env2)

/-- The `try`/`catch` of `migrateSession`'s mutation phase: an error thrown
inside the body is converted into a `success = false` result (partial
failure handling) instead of propagating. -/
def migrateSessionMutate (env : Env) (sessionId : String) (mode : Mode)
    (sourceWorkspace normalizedDest srcDbPath destDbPath : String) :
    SessionMigrationResult × Env :=
  match migrateSessionBody env sessionId mode sourceWorkspace normalizedDest
      srcDbPath destDbPath with
  | (.ok r, e) => (r, e)
  | (.error err, e) =>
    ({ success := false, sessionId := sessionId,
       sourceWorkspace := sourceWorkspace,
       destinationWorkspace := normalizedDest, mode := mode,
       newSessionId := none, error := some err, dryRun := false }, e)

/-- `migrateSession` from `src/core/migrate.ts`: resolve the source
workspace for the session (throwing `SessionNotFoundError`), reject a
same-workspace migration (`SameWorkspaceError`), resolve the destination
workspace (`WorkspaceNotFoundError`), return a preview result on a dry run,
and otherwise run the mutation phase, whose failures come back as
`success = false` results rather than thrown errors. -/
def migrateSession (env : Env) (sessionId : String) (opts : SessionOpts) :
    Except MErr SessionMigrationResult × Env :=
  let normalizedDest := normalizePath env.home opts.destination
  match findWorkspaceForSession env sessionId with
  | none => (.error (.sessionNotFound sessionId), env)
  | some srcW =>
    if pathsEqual env.home srcW.path normalizedDest then
      (.error (.sameWorkspace normalizedDest), env)
    else
      match findWorkspaceByPath env normalizedDest with
      | none => (.error (.workspaceNotFound normalizedDest), env)
      | some destW =>
        if opts.dryRun then
          (.ok { success := true, sessionId := sessionId,
                 sourceWorkspace := srcW.path,
                 destinationWorkspace := normalizedDest, mode := opts.mode,
                 newSessionId := none, error := none, dryRun := true }, env)
        else
          let r := migrateSessionMutate env sessionId opts.mode srcW.path
            normalizedDest srcW.dbPath destW.dbPath
          (.ok r.1, r.2)

/-! ## Batch migration — `migrateSessions` from `src/core/migrate.ts` -/

/-- The loop of `migrateSessions`: run `migrateSession` once per id in input
order, converting thrown errors into `success = false` results with
`sourceWorkspace = "unknown"` so one failure never aborts the rest. -/
def migrateSessionsGo (sopts : SessionOpts) :
    Env → List String → List SessionMigrationResult × Env
  | env, [] => ([], env)
  | env, sid :: rest =>
    let step :=
      match migrateSession env sid sopts with
      | (.ok r, e) => (r, e)
      | (.error err, e) =>
        ({ success := false, sessionId := sid, sourceWorkspace := "unknown",
           destinationWorkspace := sopts.destination, mode := sopts.mode,
           newSessionId := none, error := some err,
           dryRun := sopts.dryRun }, e)
    let next := migrateSessionsGo sopts step.2 rest
    (step.1 :: next.1, next.2)

/-- `migrateSessions` from `src/core/migrate.ts`. -/
def migrateSessions (env : Env) (opts : MigrateSessionOptions) :
    List SessionMigrationResult × Env :=
  migrateSessionsGo
    { destination := opts.destination, mode := opts.mode,
      dryRun := opts.dryRun, force := opts.force }
    env opts.sessionIds

/-! ## Workspace migration — `migrateWorkspace` from `src/core/migrate.ts` -/

/-- `migrateWorkspace` from `src/core/migrate.ts`: validate the pair of
paths, resolve both workspaces, require a nonempty source array, enforce the
destination-empty guard unless `force` is set, extract the string-typed
session ids, and delegate to `migrateSessions`, aggregating the results. -/
def migrateWorkspace (env : Env) (opts : MigrateWorkspaceOptions) :
    Except MErr WorkspaceMigrationResult × Env :=
  let normalizedSource := normalizePath env.home opts.source
  let normalizedDest := normalizePath env.home opts.destination
  if pathsEqual env.home normalizedSource normalizedDest then
    (.error (.sameWorkspace normalizedSource), env)
  else
    match findWorkspaceByPath env normalizedSource with
    | none => (.error (.workspaceNotFound normalizedSource), env)
    | some srcW =>
      match findWorkspaceByPath env normalizedDest with
      | none => (.error (.workspaceNotFound normalizedDest), env)
      | some destW =>
        match getComposerData env srcW.dbPath with
        | none => (.error (.noSessionsFound normalizedSource), env)
        | some srcCd =>
          if srcCd.composers.length = 0 then
            (.error (.noSessionsFound normalizedSource), env)
          else
            let destBlock : Option MErr :=
              if opts.force then none
              else
                match getComposerData env destW.dbPath with
                | some destCd =>
                  if destCd.composers.length > 0 then
                    some (.destinationHasSessions normalizedDest
                      destCd.composers.length)
                  else none
                | none => none
            match destBlock with
            | some e => (.error e, env)
            | none =>
              let sessionIds := srcCd.composers.filterMap Session.composerId
              if sessionIds.length = 0 then
                (.error (.noSessionsFound normalizedSource), env)
              else
                let r := migrateSessions env
                  { sessionIds := sessionIds, destination := normalizedDest,
                    mode := opts.mode, dryRun := opts.dryRun,
                    force := opts.force }
                let successCount := (r.1.filter fun x => x.success).length
                let failureCount := (r.1.filter fun x => !x.success).length
                (.ok { success := failureCount == 0,
                       source := normalizedSource,
                       destination := normalizedDest, mode := opts.mode,
                       totalSessions := r.1.length,
                       successCount := successCount,
                       failureCount := failureCount,
                       results := r.1, dryRun := opts.dryRun }, r.2)

/-! ## Helper lemmas about the list and association-list primitives -/

theorem assocGet_set_eq {α : Type} (l : List (String × α)) (k : String) (v : α) :
    assocGet (assocSet l k v) k = some v := by
  induction l with
  | nil => simp [assocGet, assocSet]
  | cons h t ih =>
    obtain ⟨k1, v1⟩ := h
    by_cases hk : k1 = k
    · simp [assocGet, assocSet, hk]
    · simp [assocGet, assocSet, hk, ih]

theorem assocGet_set_ne {α : Type} (l : List (String × α)) (k k' : String) (v : α)
    (h : k' ≠ k) : assocGet (assocSet l k v) k' = assocGet l k' := by
  induction l with
  | nil => simp [assocGet, assocSet, Ne.symm h]
  | cons hd t ih =>
    obtain ⟨k1, v1⟩ := hd
    by_cases hk : k1 = k
    · subst hk
      have hne : ¬k1 = k' := Ne.symm h
      simp [assocGet, assocSet, hne]
    · by_cases hk' : k1 = k'
      · simp [assocGet, assocSet, hk, hk', h]
      · simp [assocGet, assocSet, hk, hk', ih]

theorem findIndexOpt_lt {α : Type} {p : α → Bool} :
    ∀ {l : List α} {i : Nat}, findIndexOpt p l = some i → i < l.length := by
  intro l
  induction l with
  | nil => intro i h; simp [findIndexOpt] at h
  | cons a as ih =>
    intro i h
    cases hpa : p a with
    | true =>
      simp [findIndexOpt, hpa] at h
      subst h
      simp
    | false =>
      simp [findIndexOpt, hpa] at h
      obtain ⟨j, hj, rfl⟩ := h
      have := ih hj
      simp only [List.length_cons]
      omega

theorem findIndexOpt_getD {α : Type} {p : α → Bool} (d : α) :
    ∀ {l : List α} {i : Nat}, findIndexOpt p l = some i → p (l.getD i d) = true := by
  intro l
  induction l with
  | nil => intro i h; simp [findIndexOpt] at h
  | cons a as ih =>
    intro i h
    cases hpa : p a with
    | true =>
      simp [findIndexOpt, hpa] at h
      subst h
      simpa using hpa
    | false =>
      simp [findIndexOpt, hpa] at h
      obtain ⟨j, hj, rfl⟩ := h
      simpa using ih hj

theorem countB_pos_findIndexOpt {α : Type} {p : α → Bool} :
    ∀ {l : List α}, 0 < countB p l → ∃ i, findIndexOpt p l = some i := by
  intro l
  induction l with
  | nil => intro h; simp [countB] at h
  | cons a as ih =>
    intro h
    cases hpa : p a with
    | true => exact ⟨0, by simp [findIndexOpt, hpa]⟩
    | false =>
      simp [countB, hpa] at h
      obtain ⟨j, hj⟩ := ih h
      exact ⟨j + 1, by simp [findIndexOpt, hpa, hj]⟩

theorem findIndexOpt_append_right {α : Type} {p : α → Bool} {x : α} :
    ∀ {l : List α}, countB p l = 0 → p x = true →
      findIndexOpt p (l ++ [x]) = some l.length := by
  intro l
  induction l with
  | nil => intro _ hx; simp [findIndexOpt, hx]
  | cons a as ih =>
    intro h hx
    cases hpa : p a with
    | true => simp [countB, hpa] at h
    | false =>
      simp [countB, hpa] at h
      simp [findIndexOpt, hpa, ih h hx]

theorem countB_append {α : Type} (p : α → Bool) :
    ∀ (l1 l2 : List α), countB p (l1 ++ l2) = countB p l1 + countB p l2 := by
  intro l1 l2
  induction l1 with
  | nil => simp [countB]
  | cons a as ih => simp [countB, ih]; omega

theorem countB_removeIndex {α : Type} {p : α → Bool} :
    ∀ {l : List α} {i : Nat}, findIndexOpt p l = some i →
      countB p (removeIndex l i) + 1 = countB p l := by
  intro l
  induction l with
  | nil => intro i h; simp [findIndexOpt] at h
  | cons a as ih =>
    intro i h
    cases hpa : p a with
    | true =>
      simp [findIndexOpt, hpa] at h
      subst h
      simp [removeIndex, countB, hpa]
      omega
    | false =>
      simp [findIndexOpt, hpa] at h
      obtain ⟨j, hj, rfl⟩ := h
      have := ih hj
      simp [removeIndex, countB, hpa]
      omega

theorem removeIndex_length {α : Type} :
    ∀ {l : List α} {i : Nat}, i < l.length → (removeIndex l i).length + 1 = l.length := by
  intro l
  induction l with
  | nil => intro i h; simp at h
  | cons a as ih =>
    intro i h
    cases i with
    | zero => simp [removeIndex]
    | succ j =>
      simp only [List.length_cons] at h
      have := ih (Nat.lt_of_succ_lt_succ h)
      simp [removeIndex, List.length_cons]
      omega

theorem removeIndex_append_length {α : Type} (x : α) :
    ∀ (l : List α), removeIndex (l ++ [x]) l.length = l := by
  intro l
  induction l with
  | nil => simp [removeIndex]
  | cons a as ih => simp [removeIndex, ih]

theorem any_eq_false_of_countB {α : Type} {p : α → Bool} :
    ∀ {l : List α}, countB p l = 0 → l.any p = false := by
  intro l
  induction l with
  | nil => intro _; simp
  | cons a as ih =>
    intro h
    cases hpa : p a with
    | true => simp [countB, hpa] at h
    | false =>
      simp [countB, hpa] at h
      simp [List.any_cons, hpa, ih h]

theorem any_eq_true_of_countB {α : Type} {p : α → Bool} :
    ∀ {l : List α}, 0 < countB p l → l.any p = true := by
  intro l
  induction l with
  | nil => intro h; simp [countB] at h
  | cons a as ih =>
    intro h
    cases hpa : p a with
    | true => simp [List.any_cons, hpa]
    | false =>
      simp [countB, hpa] at h
      simp [List.any_cons, hpa, ih h]

theorem countB_pos_of_mem {α : Type} {p : α → Bool} {a : α} :
    ∀ {l : List α}, a ∈ l → p a = true → 0 < countB p l := by
  intro l
  induction l with
  | nil => intro h _; simp at h
  | cons b bs ih =>
    intro h hp
    rcases List.mem_cons.mp h with h1 | h2
    · subst h1; simp [countB, hp]
    · have := ih h2 hp
      cases hpb : p b <;> simp [countB, hpb]
      all_goals omega

theorem count_one_unique {α : Type} {p : α → Bool} {x y : α} :
    ∀ {l : List α}, countB p l = 1 → x ∈ l → p x = true → y ∈ l → p y = true →
      x = y := by
  intro l
  induction l with
  | nil => intro _ hx; simp at hx
  | cons a as ih =>
    intro h hx hpx hy hpy
    cases hpa : p a with
    | true =>
      simp [countB, hpa] at h
      have hx0 : countB p as = 0 := h
      rcases List.mem_cons.mp hx with rfl | hx2
      · rcases List.mem_cons.mp hy with rfl | hy2
        · rfl
        · exact absurd (countB_pos_of_mem hy2 hpy) (by omega)
      · exact absurd (countB_pos_of_mem hx2 hpx) (by omega)
    | false =>
      simp [countB, hpa] at h
      rcases List.mem_cons.mp hx with rfl | hx2
      · rw [hpx] at hpa; cases hpa
      · rcases List.mem_cons.mp hy with rfl | hy2
        · rw [hpy] at hpa; cases hpa
        · exact ih h hx2 hpx hy2 hpy

/-! ## Behavioural lemmas about the migration functions -/

/-- Dry-run calls of `migrateSession` never change the state. -/
theorem migrateSession_dry_env (env : Env) (sid : String) (opts : SessionOpts)
    (h : opts.dryRun = true) : (migrateSession env sid opts).2 = env := by
  unfold migrateSession
  dsimp only
  cases hf : findWorkspaceForSession env sid with
  | none => rfl
  | some srcW =>
    dsimp only
    cases hp : pathsEqual env.home srcW.path (normalizePath env.home opts.destination) with
    | true => simp
    | false =>
      cases hd : findWorkspaceByPath env (normalizePath env.home opts.destination) with
      | none => rfl
      | some destW => simp [h]

/-- Thrown (left) results of `migrateSession` leave the state unchanged. -/
theorem migrateSession_error_env {env : Env} {sid : String} {opts : SessionOpts}
    {err : MErr} {e : Env} (h : migrateSession env sid opts = (.error err, e)) :
    e = env := by
  unfold migrateSession at h
  dsimp only at h
  cases hf : findWorkspaceForSession env sid with
  | none => rw [hf] at h; simp at h; exact h.2.symm
  | some srcW =>
    rw [hf] at h
    dsimp only at h
    cases hp : pathsEqual env.home srcW.path (normalizePath env.home opts.destination) with
    | true => rw [hp] at h; simp at h; exact h.2.symm
    | false =>
      rw [hp] at h
      simp only [Bool.false_eq_true] at h
      cases hd : findWorkspaceByPath env (normalizePath env.home opts.destination) with
      | none => rw [hd] at h; simp at h; exact h.2.symm
      | some destW =>
        rw [hd] at h
        dsimp only at h
        cases hdry : opts.dryRun with
        | true => rw [hdry] at h; simp at h
        | false => rw [hdry] at h; simp at h

/-- A mutation-phase body that returns `ok` reports the requested session id. -/
theorem migrateSessionBody_fst_sessionId (env : Env) (sid : String) (mode : Mode)
    (sw nd sdb ddb : String) :
    ∀ {r : SessionMigrationResult} {e : Env},
      migrateSessionBody env sid mode sw nd sdb ddb = (.ok r, e) → r.sessionId = sid := by
  intro r e h
  unfold migrateSessionBody at h
  dsimp only at h
  cases hsrc : getComposerData env sdb with
  | none => rw [hsrc] at h; simp at h
  | some srcCd =>
    rw [hsrc] at h
    dsimp only at h
    cases hfi : findIndexOpt (sessionMatches sid) srcCd.composers with
    | none => rw [hfi] at h; simp at h
    | some idx =>
      rw [hfi] at h
      cases mode with
      | move => simp at h; rw [← h.1]
      | copy => simp at h; rw [← h.1]

/-- The caught mutation phase always reports the requested session id. -/
theorem migrateSessionMutate_sessionId (env : Env) (sid : String) (mode : Mode)
    (sw nd sdb ddb : String) :
    (migrateSessionMutate env sid mode sw nd sdb ddb).1.sessionId = sid := by
  unfold migrateSessionMutate
  cases hb : migrateSessionBody env sid mode sw nd sdb ddb with
  | mk exc e =>
    cases exc with
    | ok r => simpa using migrateSessionBody_fst_sessionId env sid mode sw nd sdb ddb hb
    | error err => simp

/-- A `migrateSession` call that returns a result reports the requested id. -/
theorem migrateSession_sessionId {env : Env} {sid : String} {opts : SessionOpts}
    {r : SessionMigrationResult} {e : Env}
    (h : migrateSession env sid opts = (.ok r, e)) : r.sessionId = sid := by
  unfold migrateSession at h
  dsimp only at h
  cases hf : findWorkspaceForSession env sid with
  | none => rw [hf] at h; simp at h
  | some srcW =>
    rw [hf] at h
    dsimp only at h
    cases hp : pathsEqual env.home srcW.path (normalizePath env.home opts.destination) with
    | true => rw [hp] at h; simp at h
    | false =>
      rw [hp] at h
      simp only [Bool.false_eq_true] at h
      cases hd : findWorkspaceByPath env (normalizePath env.home opts.destination) with
      | none => rw [hd] at h; simp at h
      | some destW =>
        rw [hd] at h
        dsimp only at h
        cases hdry : opts.dryRun with
        | true =>
          rw [hdry] at h
          simp at h
          rw [← h.1]
        | false =>
          rw [hdry] at h
          simp at h
          rw [← h.1]
          exact migrateSessionMutate_sessionId env sid opts.mode srcW.path
            (normalizePath env.home opts.destination) srcW.dbPath destW.dbPath

/-- The batch loop returns exactly one result per input id. -/
theorem migrateSessionsGo_length (sopts : SessionOpts) :
    ∀ (ids : List String) (env : Env),
      (migrateSessionsGo sopts env ids).1.length = ids.length := by
  intro ids
  induction ids with
  | nil => intro env; rfl
  | cons sid rest ih =>
    intro env
    unfold migrateSessionsGo
    dsimp only
    cases hm : migrateSession env sid sopts with
    | mk exc e => cases exc <;> simp [ih]

/-- The i-th batch result carries the i-th input id. -/
theorem migrateSessionsGo_get (sopts : SessionOpts) :
    ∀ (ids : List String) (env : Env) (i : Nat),
      (((migrateSessionsGo sopts env ids).1.get? i).map fun r => r.sessionId)
        = ids.get? i := by
  intro ids
  induction ids with
  | nil => intro env i; rfl
  | cons sid rest ih =>
    intro env i
    unfold migrateSessionsGo
    dsimp only
    cases hm : migrateSession env sid sopts with
    | mk exc e =>
      cases exc with
      | ok r =>
        cases i with
        | zero => simpa using migrateSession_sessionId hm
        | succ j => simpa using ih _ j
      | error err =>
        cases i with
        | zero => simp
        | succ j => simpa using ih _ j

/-- Dry-run batches never change the state. -/
theorem migrateSessionsGo_dry_env (sopts : SessionOpts) (h : sopts.dryRun = true) :
    ∀ (ids : List String) (env : Env), (migrateSessionsGo sopts env ids).2 = env := by
  intro ids
  induction ids with
  | nil => intro env; rfl
  | cons sid rest ih =>
    intro env
    unfold migrateSessionsGo
    dsimp only
    cases hm : migrateSession env sid sopts with
    | mk exc e =>
      have he : e = env := by
        cases exc with
        | ok r =>
          have := migrateSession_dry_env env sid sopts h
          rw [hm] at this
          exact this
        | error err => exact migrateSession_error_env hm
      cases exc with
      | ok r => simpa [he] using ih e
      | error err => simpa [he] using ih e

/-- Dry-run workspace migrations never change the state. -/
theorem migrateWorkspace_dry_env (env : Env) (opts : MigrateWorkspaceOptions)
    (h : opts.dryRun = true) : (migrateWorkspace env opts).2 = env := by
  unfold migrateWorkspace
  dsimp only
  cases hsd : pathsEqual env.home (normalizePath env.home opts.source)
      (normalizePath env.home opts.destination) with
  | true => rfl
  | false =>
    cases hs : findWorkspaceByPath env (normalizePath env.home opts.source) with
    | none => rfl
    | some srcW =>
      dsimp only
      cases hd : findWorkspaceByPath env (normalizePath env.home opts.destination) with
      | none => rfl
      | some destW =>
        dsimp only
        cases hcd : getComposerData env srcW.dbPath with
        | none => rfl
        | some srcCd =>
          dsimp only
          by_cases hlen : srcCd.composers.length = 0
          · simp [hlen]
          · simp only [hlen, if_false]
            cases hblock : (if opts.force = true then none
              else
                match getComposerData env destW.dbPath with
                | some destCd =>
                  if destCd.composers.length > 0 then
                    some (MErr.destinationHasSessions
                      (normalizePath env.home opts.destination)
                      destCd.composers.length)
                  else none
                | none => none : Option MErr) with
            | some e => simp [hblock]
            | none =>
              simp only [hblock]
              by_cases hids : (srcCd.composers.filterMap Session.composerId).length = 0
              · simp [hids]
              · simp only [hids, if_false]
                exact migrateSessionsGo_dry_env _ h _ env


/-! ## Claim theorems (first group) and their fixtures -/

/-- Helper: `genIdAux` emits exactly one character per template character. -/
theorem genIdAux_length :
    ∀ (cs : List Char) (s : List Nat), (genIdAux cs s).1.length = cs.length := by
  intro cs
  induction cs with
  | nil => intro s; rfl
  | cons c rest ih =>
    intro s
    by_cases hx : c = 'x'
    · simp [genIdAux, hx, ih]
    · by_cases hy : c = 'y'
      · simp [genIdAux, hx, hy, ih]
      · simp [genIdAux, hx, hy, ih]

/-- Helper: a list of records all lacking a string id yields no session ids. -/
theorem filterMap_composerId_nil {l : List Session}
    (h : ∀ s ∈ l, s.composerId = none) : l.filterMap Session.composerId = [] := by
  induction l with
  | nil => rfl
  | cons a as ih =>
    have ha := h a (List.mem_cons_self a as)
    have hrest : ∀ s ∈ as, s.composerId = none := fun s hs => h s (List.mem_cons_of_mem a hs)
    simp [List.filterMap_cons, ha, ih hrest]

/- ===== fixtures for witnesses and counterexamples ===== -/

/-- Fixture workspace A. -/
def waF : Workspace := ⟨"/a", "dba"⟩

/-- Fixture workspace B. -/
def wbF : Workspace := ⟨"/b", "dbb"⟩

/-- Fixture session owned by A. -/
def sAF : Session := ⟨some "s1", 5⟩

/-- Fixture environment: A owns one session, B owns none. -/
def envF : Env :=
  { home := "/h", workspaces := [waF, wbF],
    dbs := [("dba", ⟨[sAF], true, some 1⟩), ("dbb", ⟨[], false, none⟩)],
    globalExists := false, globalKV := [], idStream := [] }

/-- Fixture environment for the internal-consistency race: the source store
has composer data but no record `s1`. -/
def envRace : Env :=
  { home := "/h", workspaces := [waF, wbF],
    dbs := [("dba", ⟨[⟨some "s2", 0⟩], true, some 1⟩), ("dbb", ⟨[], false, none⟩)],
    globalExists := false, globalKV := [], idStream := [] }

/-- Fixture environment whose only source record has no string identifier. -/
def envNoId : Env :=
  { home := "/h", workspaces := [waF, wbF],
    dbs := [("dba", ⟨[⟨none, 3⟩], true, some 1⟩), ("dbb", ⟨[], false, none⟩)],
    globalExists := false, globalKV := [], idStream := [] }

/- ===== C3 ===== -/

/-- C3: dry run is a no-op. Any `dryRun = true` call of `migrateSession`,
`migrateSessions` or `migrateWorkspace` returns the state unchanged (so no
store's array key value changes), and a dry-run `migrateSession` that passes
resolution and validation returns `success = true, dryRun = true` with the
resolved source and destination paths. -/
theorem C3_dry_run_is_noop :
    (∀ (env : Env) (sid : String) (opts : SessionOpts), opts.dryRun = true →
      (migrateSession env sid opts).2 = env) ∧
    (∀ (env : Env) (opts : MigrateSessionOptions), opts.dryRun = true →
      (migrateSessions env opts).2 = env) ∧
    (∀ (env : Env) (opts : MigrateWorkspaceOptions), opts.dryRun = true →
      (migrateWorkspace env opts).2 = env) ∧
    (∀ (env : Env) (sid : String) (opts : SessionOpts) (srcW destW : Workspace),
      opts.dryRun = true →
      findWorkspaceForSession env sid = some srcW →
      pathsEqual env.home srcW.path (normalizePath env.home opts.destination) = false →
      findWorkspaceByPath env (normalizePath env.home opts.destination) = some destW →
      (migrateSession env sid opts).1 =
        .ok { success := true, sessionId := sid, sourceWorkspace := srcW.path,
              destinationWorkspace := normalizePath env.home opts.destination,
              mode := opts.mode, newSessionId := none, error := none,
              dryRun := true }) := by
  refine ⟨migrateSession_dry_env, ?_, migrateWorkspace_dry_env, ?_⟩
  · intro env opts h
    exact migrateSessionsGo_dry_env _ h _ env
  · intro env sid opts srcW destW hdry hf hp hd
    unfold migrateSession
    dsimp only
    rw [hf]
    dsimp only
    rw [hp]
    simp only [Bool.false_eq_true, if_false]
    rw [hd]
    dsimp only
    rw [hdry]
    simp

/-- Witness for C3 at a concrete environment. -/
theorem C3_dry_run_is_noop_witness :
    (migrateSession envF "s1" ⟨"/b", .move, true, false⟩).2 = envF ∧
    (migrateWorkspace envF ⟨"/a", "/b", .move, true, true⟩).2 = envF ∧
    (migrateSession envF "s1" ⟨"/b", .move, true, false⟩).1 =
      .ok { success := true, sessionId := "s1", sourceWorkspace := "/a",
            destinationWorkspace := "/b", mode := .move, newSessionId := none,
            error := none, dryRun := true } := by
  refine ⟨C3_dry_run_is_noop.1 envF "s1" _ rfl,
          C3_dry_run_is_noop.2.2.1 envF _ rfl, ?_⟩
  have := C3_dry_run_is_noop.2.2.2 envF "s1" ⟨"/b", .move, true, false⟩ waF wbF
    rfl (by decide) (by decide) (by decide)
  simpa using this

/- ===== C4 ===== -/

/-- C4: batch order and independence. `migrateSessions` returns exactly one
result per input id, in input order, the i-th result carrying the i-th id;
and a thrown error on one id is converted into a `success = false` result
(so later ids are still attempted and nothing propagates). -/
theorem C4_batch_order_independence :
    (∀ (env : Env) (opts : MigrateSessionOptions),
      (migrateSessions env opts).1.length = opts.sessionIds.length) ∧
    (∀ (env : Env) (opts : MigrateSessionOptions) (i : Nat),
      (((migrateSessions env opts).1.get? i).map fun r => r.sessionId)
        = opts.sessionIds.get? i) ∧
    (∀ (env : Env) (opts : MigrateSessionOptions) (sid : String)
        (rest : List String) (err : MErr) (e' : Env),
      opts.sessionIds = sid :: rest →
      migrateSession env sid
          { destination := opts.destination, mode := opts.mode,
            dryRun := opts.dryRun, force := opts.force } = (.error err, e') →
      (migrateSessions env opts).1.head? =
        some { success := false, sessionId := sid, sourceWorkspace := "unknown",
               destinationWorkspace := opts.destination, mode := opts.mode,
               newSessionId := none, error := some err,
               dryRun := opts.dryRun }) := by
  refine ⟨?_, ?_, ?_⟩
  · intro env opts
    exact migrateSessionsGo_length _ _ env
  · intro env opts i
    exact migrateSessionsGo_get _ _ env i
  · intro env opts sid rest err e' hids hm
    unfold migrateSessions
    rw [hids]
    unfold migrateSessionsGo
    dsimp only
    rw [hm]
    simp

/-- Witness for C4: a batch whose single id resolves nowhere still yields one
ordered `success = false` result. -/
theorem C4_batch_order_independence_witness :
    (migrateSessions envF ⟨["zz"], "/b", .move, false, false⟩).1.length = 1 ∧
    (migrateSessions envF ⟨["zz"], "/b", .move, false, false⟩).1.head? =
      some { success := false, sessionId := "zz", sourceWorkspace := "unknown",
             destinationWorkspace := "/b", mode := .move, newSessionId := none,
             error := some (.sessionNotFound "zz"), dryRun := false } := by
  refine ⟨C4_batch_order_independence.1 envF _, ?_⟩
  exact C4_batch_order_independence.2.2 envF ⟨["zz"], "/b", .move, false, false⟩
    "zz" [] (.sessionNotFound "zz") envF rfl rfl

/- ===== C6 ===== -/

/-- C6 counterexample: when the record is absent from the source array in the
mutation phase, the failed result carries the `SessionNotFoundError`
(RECORD_NOT_FOUND) — not a distinct MIGRATION_FAILED error — refuting the
claim that the reported error is not RECORD_NOT_FOUND. -/
theorem C6_counterexample :
    (migrateSessionMutate envRace "s1" .move "/a" "/b" "dba" "dbb").1.error
        = some (MErr.sessionNotFound "s1") ∧
    (migrateSessionMutate envRace "s1" .move "/a" "/b" "dba" "dbb").1.success
        = false := by
  constructor <;> decide

/-- C6 amended: a record absent from the source array during the mutation
phase is reported — for either mode — as a `success = false` result via the
mutation-phase catch (not thrown, not silently ignored, no state change),
but the error carried is the `SessionNotFoundError` (RECORD_NOT_FOUND)
itself, not a distinct MIGRATION_FAILED error. -/
theorem C6_race_reported (env : Env) (sid : String) (mode : Mode)
    (sw nd sdb ddb : String) (cd : ComposerData)
    (hsrc : getComposerData env sdb = some cd)
    (habs : findIndexOpt (sessionMatches sid) cd.composers = none) :
    migrateSessionMutate env sid mode sw nd sdb ddb =
      ({ success := false, sessionId := sid, sourceWorkspace := sw,
         destinationWorkspace := nd, mode := mode, newSessionId := none,
         error := some (.sessionNotFound sid), dryRun := false }, env) := by
  unfold migrateSessionMutate migrateSessionBody
  dsimp only
  rw [hsrc]
  dsimp only
  rw [habs]

/-- Witness for C6 at a concrete environment. -/
theorem C6_race_reported_witness :
    migrateSessionMutate envRace "s1" .copy "/a" "/b" "dba" "dbb" =
      ({ success := false, sessionId := "s1", sourceWorkspace := "/a",
         destinationWorkspace := "/b", mode := .copy, newSessionId := none,
         error := some (.sessionNotFound "s1"), dryRun := false }, envRace) :=
  C6_race_reported envRace "s1" .copy "/a" "/b" "dba" "dbb"
    ⟨[⟨some "s2", 0⟩], true, some 1⟩ (by decide) (by decide)

/- ===== C9 ===== -/

/-- C9: the id generator is a pure function of the `Math.random` nibble
stream — with an all-zero stream it produces exactly
`00000000-0000-4000-8000-000000000000` — and always emits a 36-character
UUID-shaped string. All identifier bytes come from the non-cryptographic
`Math.random` model; nothing else contributes entropy, so the generator is
only as strong as `Math.random`. -/
theorem C9_generator_from_math_random :
    (generateSessionId []).1 = "00000000-0000-4000-8000-000000000000" ∧
    (∀ s : List Nat, (generateSessionId s).1.data.length = 36) := by
  constructor
  · decide
  · intro s
    show (genIdAux uuidTemplate s).1.length = 36
    rw [genIdAux_length]
    decide

/- ===== C10 ===== -/

/-- C10: `migrateWorkspace` enumerates only records whose identifier is a
string: when every source record lacks one (and the array is nonempty, the
other validations passing), it fails with `NoSessionsFoundError`
(NO_RECORDS_FOUND) and the state is unchanged; and on any successful run the
number of attempted sessions equals the number of source records that do
have a string identifier. -/
theorem C10_identifierless_records_excluded :
    (∀ (env : Env) (opts : MigrateWorkspaceOptions) (srcW destW : Workspace)
        (cd : ComposerData),
      pathsEqual env.home (normalizePath env.home opts.source)
          (normalizePath env.home opts.destination) = false →
      findWorkspaceByPath env (normalizePath env.home opts.source) = some srcW →
      findWorkspaceByPath env (normalizePath env.home opts.destination) = some destW →
      getComposerData env srcW.dbPath = some cd →
      cd.composers ≠ [] →
      (∀ s ∈ cd.composers, s.composerId = none) →
      opts.force = true →
      migrateWorkspace env opts =
        (.error (.noSessionsFound (normalizePath env.home opts.source)), env)) ∧
    (∀ (env : Env) (opts : MigrateWorkspaceOptions)
        (r : WorkspaceMigrationResult) (e : Env) (srcW : Workspace)
        (cd : ComposerData),
      migrateWorkspace env opts = (.ok r, e) →
      findWorkspaceByPath env (normalizePath env.home opts.source) = some srcW →
      getComposerData env srcW.dbPath = some cd →
      r.totalSessions = (cd.composers.filterMap Session.composerId).length) := by
  constructor
  · intro env opts srcW destW cd h0 h1 h2 h3 h4 h5 h6
    unfold migrateWorkspace
    dsimp only
    rw [h0]
    simp only [Bool.false_eq_true, if_false]
    rw [h1]
    dsimp only
    rw [h2]
    dsimp only
    rw [h3]
    dsimp only
    have hlen : ¬cd.composers.length = 0 := by
      simpa [List.length_eq_zero] using h4
    simp only [hlen, if_false, h6, if_true]
    rw [filterMap_composerId_nil h5]
    simp
  · intro env opts r e srcW cd h h1 h3
    unfold migrateWorkspace at h
    dsimp only at h
    cases h0 : pathsEqual env.home (normalizePath env.home opts.source)
        (normalizePath env.home opts.destination) with
    | true => rw [h0] at h; simp at h
    | false =>
      rw [h0] at h
      simp only [Bool.false_eq_true, if_false] at h
      rw [h1] at h
      dsimp only at h
      cases h2 : findWorkspaceByPath env (normalizePath env.home opts.destination) with
      | none => rw [h2] at h; simp at h
      | some destW =>
        rw [h2] at h
        dsimp only at h
        rw [h3] at h
        dsimp only at h
        by_cases hlen : cd.composers.length = 0
        · simp [hlen] at h
        · simp only [hlen, if_false] at h
          cases hblock : (if opts.force = true then none
            else
              match getComposerData env destW.dbPath with
              | some destCd =>
                if destCd.composers.length > 0 then
                  some (MErr.destinationHasSessions
                    (normalizePath env.home opts.destination)
                    destCd.composers.length)
                else none
              | none => none : Option MErr) with
          | some err => rw [hblock] at h; simp at h
          | none =>
            rw [hblock] at h
            dsimp only at h
            by_cases hids : (cd.composers.filterMap Session.composerId).length = 0
            · simp [hids] at h
            · simp only [hids, if_false] at h
              simp at h
              rw [← h.1]
              dsimp only
              unfold migrateSessions
              exact migrateSessionsGo_length _ _ env

/-- Witness for C10 at a concrete environment whose only source record has no
string identifier. -/
theorem C10_identifierless_records_excluded_witness :
    migrateWorkspace envNoId ⟨"/a", "/b", .move, false, true⟩ =
      (.error (.noSessionsFound "/a"), envNoId) := by
  have := C10_identifierless_records_excluded.1 envNoId
    ⟨"/a", "/b", .move, false, true⟩ waF wbF ⟨[⟨none, 3⟩], true, some 1⟩
    (by decide) (by decide) (by decide) (by decide) (by decide)
    (by intro s hs; simp at hs; rw [hs]) rfl
  simpa using this



/-- Helper: an in-range `getD` element is a member of the list. -/
theorem getD_mem {α : Type} (d : α) :
    ∀ {l : List α} {i : Nat}, i < l.length → l.getD i d ∈ l := by
  intro l
  induction l with
  | nil => intro i h; simp at h
  | cons a as ih =>
    intro i h
    cases i with
    | zero => simp
    | succ j =>
      simp only [List.length_cons] at h
      rw [List.getD_cons_succ]
      exact List.mem_cons_of_mem a (ih (Nat.lt_of_succ_lt_succ h))

/-- Helper: a list with one appended matching element has positive count. -/
theorem countB_append_singleton_pos {α : Type} {p : α → Bool} {x : α}
    (hx : p x = true) (l : List α) : 0 < countB p (l ++ [x]) := by
  rw [countB_append]
  simp [countB, hx]

/-- Helper: bubble replication never touches the workspace store tables. -/
theorem copyBubble_dbs (e : Env) (a b : String) :
    (copyBubbleDataInGlobalStorage e a b).2.dbs = e.dbs := by
  unfold copyBubbleDataInGlobalStorage
  cases hg : e.globalExists <;> rfl

/- ===== C1 ===== -/

/-- C1: move is a transfer, not a clone. With the destination resolved, the
paths distinct after normalization, distinct backing stores, `dryRun = false`
and the record's identifier unique in the source array, a move removes the
record from the source array (count decreases by one, identifier no longer
present) and appends it to the destination array (count increases by one,
identifier present), returning a success result. Array writes are modelled
as always succeeding. -/
theorem C1_move_is_transfer (env : Env) (rid dest : String) (frc : Bool)
    (srcW destW : Workspace) (srcCd : ComposerData)
    (hf : findWorkspaceForSession env rid = some srcW)
    (hp : pathsEqual env.home srcW.path (normalizePath env.home dest) = false)
    (hd : findWorkspaceByPath env (normalizePath env.home dest) = some destW)
    (hdb : srcW.dbPath ≠ destW.dbPath)
    (hsrc : getComposerData env srcW.dbPath = some srcCd)
    (hcnt : countB (sessionMatches rid) srcCd.composers = 1) :
    (migrateSession env rid ⟨dest, .move, false, frc⟩).1 =
      .ok { success := true, sessionId := rid, sourceWorkspace := srcW.path,
            destinationWorkspace := normalizePath env.home dest, mode := .move,
            newSessionId := none, error := none, dryRun := false } ∧
    (∃ newSrc : ComposerData,
      getComposerData (migrateSession env rid ⟨dest, .move, false, frc⟩).2
          srcW.dbPath = some newSrc ∧
      newSrc.composers.length + 1 = srcCd.composers.length ∧
      countB (sessionMatches rid) newSrc.composers = 0) ∧
    (∃ newDst : ComposerData,
      getComposerData (migrateSession env rid ⟨dest, .move, false, frc⟩).2
          destW.dbPath = some newDst ∧
      newDst.composers.length =
        (match getComposerData env destW.dbPath with
         | some d => d.composers.length
         | none => 0) + 1 ∧
      0 < countB (sessionMatches rid) newDst.composers) := by
  obtain ⟨idx, hfi⟩ := countB_pos_findIndexOpt (p := sessionMatches rid)
    (l := srcCd.composers) (by omega)
  unfold migrateSession migrateSessionMutate migrateSessionBody
  dsimp only
  rw [hf]
  dsimp only
  rw [hp]
  simp only [Bool.false_eq_true, if_false]
  rw [hd]
  dsimp only
  rw [hsrc]
  dsimp only
  rw [hfi]
  dsimp only
  cases hdst : getComposerData env destW.dbPath with
  | none =>
    refine ⟨rfl, ?_, ?_⟩
    · refine ⟨⟨removeIndex srcCd.composers idx, srcCd.isNewFormat, srcCd.rawData⟩, ?_, ?_, ?_⟩
      · show assocGet (assocSet (assocSet env.dbs srcW.dbPath _) destW.dbPath _)
            srcW.dbPath = _
        rw [assocGet_set_ne _ _ _ _ hdb, assocGet_set_eq]
      · exact removeIndex_length (findIndexOpt_lt hfi)
      · show countB (sessionMatches rid) (removeIndex srcCd.composers idx) = 0
        have := countB_removeIndex hfi
        omega
    · refine ⟨⟨[] ++ [srcCd.composers.getD idx ⟨none, 0⟩], srcCd.isNewFormat, none⟩, ?_, ?_, ?_⟩
      · show assocGet (assocSet (assocSet env.dbs srcW.dbPath _) destW.dbPath _)
            destW.dbPath = _
        rw [assocGet_set_eq]
        rfl
      · simp
      · have hm := findIndexOpt_getD (⟨none, 0⟩ : Session) hfi
        exact countB_append_singleton_pos hm _
  | some destCd =>
    refine ⟨rfl, ?_, ?_⟩
    · refine ⟨⟨removeIndex srcCd.composers idx, srcCd.isNewFormat, srcCd.rawData⟩, ?_, ?_, ?_⟩
      · show assocGet (assocSet (assocSet env.dbs srcW.dbPath _) destW.dbPath _)
            srcW.dbPath = _
        rw [assocGet_set_ne _ _ _ _ hdb, assocGet_set_eq]
      · exact removeIndex_length (findIndexOpt_lt hfi)
      · show countB (sessionMatches rid) (removeIndex srcCd.composers idx) = 0
        have := countB_removeIndex hfi
        omega
    · refine ⟨⟨destCd.composers ++ [srcCd.composers.getD idx ⟨none, 0⟩],
          destCd.isNewFormat, destCd.rawData⟩, ?_, ?_, ?_⟩
      · show assocGet (assocSet (assocSet env.dbs srcW.dbPath _) destW.dbPath _)
            destW.dbPath = _
        rw [assocGet_set_eq]
        rfl
      · simp
      · have hm := findIndexOpt_getD (⟨none, 0⟩ : Session) hfi
        exact countB_append_singleton_pos hm _

/-- Witness for C1 at a concrete environment. -/
theorem C1_move_is_transfer_witness :
    (migrateSession envF "s1" ⟨"/b", .move, false, false⟩).1 =
      .ok { success := true, sessionId := "s1", sourceWorkspace := "/a",
            destinationWorkspace := "/b", mode := .move,
            newSessionId := none, error := none, dryRun := false } ∧
    (∃ newSrc : ComposerData,
      getComposerData (migrateSession envF "s1" ⟨"/b", .move, false, false⟩).2
          "dba" = some newSrc ∧
      newSrc.composers.length + 1 = [sAF].length ∧
      countB (sessionMatches "s1") newSrc.composers = 0) ∧
    (∃ newDst : ComposerData,
      getComposerData (migrateSession envF "s1" ⟨"/b", .move, false, false⟩).2
          "dbb" = some newDst ∧
      newDst.composers.length =
        (match getComposerData envF "dbb" with
         | some d => d.composers.length
         | none => 0) + 1 ∧
      0 < countB (sessionMatches "s1") newDst.composers) := by
  have := C1_move_is_transfer envF "s1" "/b" false waF wbF ⟨[sAF], true, some 1⟩
    (by decide) (by decide) (by decide) (by decide) (by decide) (by decide)
  simpa using this



/- ===== C2 ===== -/

/-- Fixture: the UUID produced by an all-zero `Math.random` draw sequence. -/
def rid0F : String := "00000000-0000-4000-8000-000000000000"

/-- Fixture environment whose single source record already carries the very
identifier the exhausted-entropy generator will produce. -/
def envClash : Env :=
  { home := "/h", workspaces := [waF, wbF],
    dbs := [("dba", ⟨[⟨some rid0F, 5⟩], true, some 1⟩), ("dbb", ⟨[], false, none⟩)],
    globalExists := false, globalKV := [], idStream := [] }

/-- C2 counterexample: the copy's "freshly generated" identifier is not
guaranteed to differ from R's. When the `Math.random` stream reproduces R's
identifier, the copied record appended to the destination carries exactly
R's identifier, refuting "a freshly generated identifier different from
R's" as a universal statement. -/
theorem C2_counterexample :
    ((migrateSession envClash rid0F ⟨"/b", .copy, false, false⟩).1.toOption.map
        fun r => r.newSessionId) = some (some rid0F) ∧
    ((getComposerData (migrateSession envClash rid0F ⟨"/b", .copy, false, false⟩).2
          "dbb").map
        fun cd => cd.composers.map Session.composerId) = some [some rid0F] := by
  constructor <;> decide

/-- C2 amended: with the destination resolved, distinct normalized paths,
distinct backing stores, `dryRun = false` and R the unique record with the
requested identifier, a copy leaves the source array entirely unchanged and
appends to the destination array exactly one new record: a deep copy of R
whose identifier field is replaced by the freshly generated identifier.
That identifier differs from R's whenever the generator's output differs
from R's identifier (the code does not check for a collision). -/
theorem C2_copy_preserves_source (env : Env) (rid dest : String) (frc : Bool)
    (srcW destW : Workspace) (srcCd : ComposerData) (R : Session)
    (hf : findWorkspaceForSession env rid = some srcW)
    (hp : pathsEqual env.home srcW.path (normalizePath env.home dest) = false)
    (hd : findWorkspaceByPath env (normalizePath env.home dest) = some destW)
    (hdb : srcW.dbPath ≠ destW.dbPath)
    (hsrc : getComposerData env srcW.dbPath = some srcCd)
    (hcnt : countB (sessionMatches rid) srcCd.composers = 1)
    (hR : R ∈ srcCd.composers) (hRid : R.composerId = some rid)
    (hne : (generateSessionId env.idStream).1 ≠ rid) :
    (migrateSession env rid ⟨dest, .copy, false, frc⟩).1 =
      .ok { success := true, sessionId := rid, sourceWorkspace := srcW.path,
            destinationWorkspace := normalizePath env.home dest, mode := .copy,
            newSessionId := some (generateSessionId env.idStream).1,
            error := none, dryRun := false } ∧
    getComposerData (migrateSession env rid ⟨dest, .copy, false, frc⟩).2
        srcW.dbPath = getComposerData env srcW.dbPath ∧
    (∃ newDst : ComposerData,
      getComposerData (migrateSession env rid ⟨dest, .copy, false, frc⟩).2
          destW.dbPath = some newDst ∧
      newDst.composers =
        (match getComposerData env destW.dbPath with
         | some d => d.composers
         | none => []) ++
          [{ R with composerId := some (generateSessionId env.idStream).1 }] ∧
      ({ R with composerId := some (generateSessionId env.idStream).1 }).composerId
        ≠ R.composerId) := by
  obtain ⟨idx, hfi⟩ := countB_pos_findIndexOpt (p := sessionMatches rid)
    (l := srcCd.composers) (by omega)
  have hgd : srcCd.composers.getD idx ⟨none, 0⟩ = R :=
    count_one_unique hcnt (getD_mem _ (findIndexOpt_lt hfi))
      (findIndexOpt_getD _ hfi) hR (by simp [sessionMatches, hRid])
  unfold migrateSession migrateSessionMutate migrateSessionBody
  dsimp only
  rw [hf]
  dsimp only
  rw [hp]
  simp only [Bool.false_eq_true, if_false]
  rw [hd]
  dsimp only
  rw [hsrc]
  dsimp only
  rw [hfi]
  dsimp only
  cases hdst : getComposerData env destW.dbPath with
  | none =>
    refine ⟨rfl, ?_, ?_⟩
    · show assocGet (assocSet ((copyBubbleDataInGlobalStorage _ _ _).2.dbs)
          destW.dbPath _) srcW.dbPath = _
      rw [assocGet_set_ne _ _ _ _ hdb, copyBubble_dbs]
      exact hsrc
    · refine ⟨⟨[] ++ [{ R with composerId := some (generateSessionId env.idStream).1 }],
          srcCd.isNewFormat, none⟩, ?_, ?_, ?_⟩
      · show assocGet (assocSet ((copyBubbleDataInGlobalStorage _ _ _).2.dbs)
            destW.dbPath _) destW.dbPath = _
        rw [assocGet_set_eq]
        rw [← hgd]
        rfl
      · rfl
      · intro hcontra
        rw [hRid] at hcontra
        exact hne (by simpa using hcontra)
  | some destCd =>
    refine ⟨rfl, ?_, ?_⟩
    · show assocGet (assocSet ((copyBubbleDataInGlobalStorage _ _ _).2.dbs)
          destW.dbPath _) srcW.dbPath = _
      rw [assocGet_set_ne _ _ _ _ hdb, copyBubble_dbs]
      exact hsrc
    · refine ⟨⟨destCd.composers ++
          [{ R with composerId := some (generateSessionId env.idStream).1 }],
          destCd.isNewFormat, destCd.rawData⟩, ?_, ?_, ?_⟩
      · show assocGet (assocSet ((copyBubbleDataInGlobalStorage _ _ _).2.dbs)
            destW.dbPath _) destW.dbPath = _
        rw [assocGet_set_eq]
        rw [← hgd]
        rfl
      · rfl
      · intro hcontra
        rw [hRid] at hcontra
        exact hne (by simpa using hcontra)

/-- Witness for the amended C2 at a concrete environment. -/
theorem C2_copy_preserves_source_witness :
    (migrateSession envF "s1" ⟨"/b", .copy, false, false⟩).1 =
      .ok { success := true, sessionId := "s1", sourceWorkspace := "/a",
            destinationWorkspace := "/b", mode := .copy,
            newSessionId := some (generateSessionId envF.idStream).1,
            error := none, dryRun := false } ∧
    getComposerData (migrateSession envF "s1" ⟨"/b", .copy, false, false⟩).2
        "dba" = getComposerData envF "dba" ∧
    (∃ newDst : ComposerData,
      getComposerData (migrateSession envF "s1" ⟨"/b", .copy, false, false⟩).2
          "dbb" = some newDst ∧
      newDst.composers =
        (match getComposerData envF "dbb" with
         | some d => d.composers
         | none => []) ++
          [{ sAF with composerId := some (generateSessionId envF.idStream).1 }] ∧
      ({ sAF with composerId := some (generateSessionId envF.idStream).1 }).composerId
        ≠ sAF.composerId) := by
  have := C2_copy_preserves_source envF "s1" "/b" false waF wbF
    ⟨[sAF], true, some 1⟩ sAF (by decide) (by decide) (by decide) (by decide)
    (by decide) (by decide) (by decide) (by decide) (by decide)
  simpa using this



/-- Helper: the element appended at position `length` is retrieved there. -/
theorem getD_append_length {α : Type} (d x : α) :
    ∀ (l : List α), (l ++ [x]).getD l.length d = x := by
  intro l
  induction l with
  | nil => rfl
  | cons a as ih => simp [List.getD_cons_succ, ih]

/-- Helper: the fully evaluated form of a non-dry move migration, given the
resolved source/destination and the index of the record in the source
array. -/
theorem migrateSession_move_spec (env : Env) (rid dest : String) (frc : Bool)
    (srcW destW : Workspace) (srcCd : ComposerData) (idx : Nat)
    (hf : findWorkspaceForSession env rid = some srcW)
    (hp : pathsEqual env.home srcW.path (normalizePath env.home dest) = false)
    (hd : findWorkspaceByPath env (normalizePath env.home dest) = some destW)
    (hsrc : getComposerData env srcW.dbPath = some srcCd)
    (hfi : findIndexOpt (sessionMatches rid) srcCd.composers = some idx) :
    migrateSession env rid ⟨dest, .move, false, frc⟩ =
      (.ok { success := true, sessionId := rid, sourceWorkspace := srcW.path,
             destinationWorkspace := normalizePath env.home dest, mode := .move,
             newSessionId := none, error := none, dryRun := false },
       updateComposerData
         (updateComposerData env srcW.dbPath (removeIndex srcCd.composers idx)
           srcCd.isNewFormat srcCd.rawData)
         destW.dbPath
         ((match getComposerData env destW.dbPath with
           | some d => d.composers
           | none => []) ++ [srcCd.composers.getD idx ⟨none, 0⟩])
         ((Option.map ComposerData.isNewFormat
            (getComposerData env destW.dbPath)).getD srcCd.isNewFormat)
         ((getComposerData env destW.dbPath).bind ComposerData.rawData)) := by
  unfold migrateSession migrateSessionMutate migrateSessionBody
  dsimp only
  rw [hf]
  dsimp only
  rw [hp]
  simp only [Bool.false_eq_true, if_false]
  rw [hd]
  dsimp only
  rw [hsrc]
  dsimp only
  rw [hfi]

/-- A universe of exactly two workspace stores, used to state the round-trip
and workspace-merge properties over arbitrary store contents. -/
def twoEnv (home : String) (wa wb : Workspace) (ca cb : ComposerData)
    (gex : Bool) (gkv : List (String × GVal)) (st : List Nat) : Env :=
  { home := home, workspaces := [wa, wb],
    dbs := [(wa.dbPath, ca), (wb.dbPath, cb)],
    globalExists := gex, globalKV := gkv, idStream := st }

theorem twoEnv_getA (home : String) (wa wb : Workspace) (ca cb : ComposerData)
    (gex : Bool) (gkv : List (String × GVal)) (st : List Nat) :
    getComposerData (twoEnv home wa wb ca cb gex gkv st) wa.dbPath = some ca := by
  simp [twoEnv, getComposerData, assocGet]

theorem twoEnv_getB (home : String) (wa wb : Workspace) (ca cb : ComposerData)
    (gex : Bool) (gkv : List (String × GVal)) (st : List Nat)
    (hdb : wa.dbPath ≠ wb.dbPath) :
    getComposerData (twoEnv home wa wb ca cb gex gkv st) wb.dbPath = some cb := by
  simp [twoEnv, getComposerData, assocGet, hdb]

theorem twoEnv_setA (home : String) (wa wb : Workspace) (ca cb : ComposerData)
    (gex : Bool) (gkv : List (String × GVal)) (st : List Nat)
    (v : List Session) (f : Bool) (r : Option Nat) :
    updateComposerData (twoEnv home wa wb ca cb gex gkv st) wa.dbPath v f r =
      twoEnv home wa wb ⟨v, f, r⟩ cb gex gkv st := by
  simp [twoEnv, updateComposerData, assocSet]

theorem twoEnv_setB (home : String) (wa wb : Workspace) (ca cb : ComposerData)
    (gex : Bool) (gkv : List (String × GVal)) (st : List Nat)
    (v : List Session) (f : Bool) (r : Option Nat)
    (hdb : wa.dbPath ≠ wb.dbPath) :
    updateComposerData (twoEnv home wa wb ca cb gex gkv st) wb.dbPath v f r =
      twoEnv home wa wb ca ⟨v, f, r⟩ gex gkv st := by
  simp [twoEnv, updateComposerData, assocSet, hdb]

theorem twoEnv_findA (home : String) (wa wb : Workspace) (ca cb : ComposerData)
    (gex : Bool) (gkv : List (String × GVal)) (st : List Nat) (sid : String)
    (h : ca.composers.any (sessionMatches sid) = true) :
    findWorkspaceForSession (twoEnv home wa wb ca cb gex gkv st) sid = some wa := by
  simp [findWorkspaceForSession, twoEnv, getComposerData, assocGet, List.find?, h]

theorem twoEnv_findB (home : String) (wa wb : Workspace) (ca cb : ComposerData)
    (gex : Bool) (gkv : List (String × GVal)) (st : List Nat) (sid : String)
    (hdb : wa.dbPath ≠ wb.dbPath)
    (hA : ca.composers.any (sessionMatches sid) = false)
    (hB : cb.composers.any (sessionMatches sid) = true) :
    findWorkspaceForSession (twoEnv home wa wb ca cb gex gkv st) sid = some wb := by
  simp [findWorkspaceForSession, twoEnv, getComposerData, assocGet, List.find?,
    hdb, hA, hB]

theorem twoEnv_byPathA (home : String) (wa wb : Workspace) (ca cb : ComposerData)
    (gex : Bool) (gkv : List (String × GVal)) (st : List Nat) (p : String)
    (h : pathsEqual home wa.path p = true) :
    findWorkspaceByPath (twoEnv home wa wb ca cb gex gkv st) p = some wa := by
  simp [findWorkspaceByPath, twoEnv, List.find?, h]

theorem twoEnv_byPathB (home : String) (wa wb : Workspace) (ca cb : ComposerData)
    (gex : Bool) (gkv : List (String × GVal)) (st : List Nat) (p : String)
    (hA : pathsEqual home wa.path p = false)
    (hB : pathsEqual home wb.path p = true) :
    findWorkspaceByPath (twoEnv home wa wb ca cb gex gkv st) p = some wb := by
  simp [findWorkspaceByPath, twoEnv, List.find?, hA, hB]

/- ===== C7 ===== -/

/-- C7: round trip. Over a two-store universe with arbitrary contents, if A
uniquely owns the record and B does not own its identifier, moving the
record A-to-B and then B-to-A succeeds both times and restores both stores
to their original record counts, with the record's identifier again present
in A's array. -/
theorem C7_round_trip (home : String) (wa wb : Workspace) (ca cb : ComposerData)
    (gex : Bool) (gkv : List (String × GVal)) (st : List Nat)
    (rid destB destA : String) (frc : Bool)
    (hdb : wa.dbPath ≠ wb.dbPath)
    (hcA : countB (sessionMatches rid) ca.composers = 1)
    (hcB : countB (sessionMatches rid) cb.composers = 0)
    (hp1 : pathsEqual home wa.path (normalizePath home destB) = false)
    (hp2 : pathsEqual home wb.path (normalizePath home destB) = true)
    (hp3 : pathsEqual home wb.path (normalizePath home destA) = false)
    (hp4 : pathsEqual home wa.path (normalizePath home destA) = true) :
    ∃ (res1 res2 : SessionMigrationResult) (env1 env2 : Env),
      migrateSession (twoEnv home wa wb ca cb gex gkv st) rid
          ⟨destB, .move, false, frc⟩ = (.ok res1, env1) ∧
      res1.success = true ∧
      migrateSession env1 rid ⟨destA, .move, false, frc⟩ = (.ok res2, env2) ∧
      res2.success = true ∧
      (∃ ca' cb' : ComposerData,
        getComposerData env2 wa.dbPath = some ca' ∧
        getComposerData env2 wb.dbPath = some cb' ∧
        ca'.composers.length = ca.composers.length ∧
        cb'.composers.length = cb.composers.length ∧
        0 < countB (sessionMatches rid) ca'.composers) := by
  obtain ⟨idx, hfi⟩ := countB_pos_findIndexOpt (p := sessionMatches rid)
    (l := ca.composers) (by omega)
  have hRf : sessionMatches rid (ca.composers.getD idx ⟨none, 0⟩) = true :=
    findIndexOpt_getD _ hfi
  -- step 1: move A -> B
  have e1 := migrateSession_move_spec (twoEnv home wa wb ca cb gex gkv st) rid
    destB frc wa wb ca idx
    (twoEnv_findA home wa wb ca cb gex gkv st rid
      (any_eq_true_of_countB (by omega)))
    hp1
    (twoEnv_byPathB home wa wb ca cb gex gkv st _ hp1 hp2)
    (twoEnv_getA home wa wb ca cb gex gkv st)
    hfi
  rw [twoEnv_getB home wa wb ca cb gex gkv st hdb] at e1
  dsimp only at e1
  rw [twoEnv_setA home wa wb ca cb gex gkv st] at e1
  rw [twoEnv_setB home wa wb _ cb gex gkv st _ _ _ hdb] at e1
  -- the state after step 1
  set ca1 : ComposerData :=
    ⟨removeIndex ca.composers idx, ca.isNewFormat, ca.rawData⟩ with hca1
  set cb1 : ComposerData :=
    ⟨cb.composers ++ [ca.composers.getD idx ⟨none, 0⟩], cb.isNewFormat,
      cb.rawData⟩ with hcb1
  -- counts after step 1
  have hcA1 : countB (sessionMatches rid) ca1.composers = 0 := by
    have := countB_removeIndex hfi
    simp only [hca1]
    omega
  have hcB1 : 0 < countB (sessionMatches rid) cb1.composers := by
    simp only [hcb1]
    exact countB_append_singleton_pos hRf _
  -- step 2: move B -> A
  have hfi2 : findIndexOpt (sessionMatches rid) cb1.composers
      = some cb.composers.length := by
    simp only [hcb1]
    exact findIndexOpt_append_right hcB hRf
  have e2 := migrateSession_move_spec (twoEnv home wa wb ca1 cb1 gex gkv st) rid
    destA frc wb wa cb1 cb.composers.length
    (twoEnv_findB home wa wb ca1 cb1 gex gkv st rid hdb
      (any_eq_false_of_countB hcA1) (any_eq_true_of_countB hcB1))
    hp3
    (twoEnv_byPathA home wa wb ca1 cb1 gex gkv st _ hp4)
    (twoEnv_getB home wa wb ca1 cb1 gex gkv st hdb)
    hfi2
  rw [twoEnv_getA home wa wb ca1 cb1 gex gkv st] at e2
  dsimp only at e2
  rw [twoEnv_setB home wa wb ca1 cb1 gex gkv st _ _ _ hdb] at e2
  rw [twoEnv_setA home wa wb ca1 _ gex gkv st] at e2
  refine ⟨_, _, _, _, e1, rfl, e2, rfl, ?_⟩
  refine ⟨⟨ca1.composers ++ [cb1.composers.getD cb.composers.length ⟨none, 0⟩],
      ca1.isNewFormat, ca1.rawData⟩,
    ⟨removeIndex cb1.composers cb.composers.length, cb1.isNewFormat,
      cb1.rawData⟩, ?_, ?_, ?_, ?_, ?_⟩
  · exact twoEnv_getA home wa wb _ _ gex gkv st
  · exact twoEnv_getB home wa wb _ _ gex gkv st hdb
  · have h1 := removeIndex_length (findIndexOpt_lt hfi)
    simp only [hca1]
    simp only [List.length_append, List.length_cons, List.length_nil]
    omega
  · simp only [hcb1]
    rw [removeIndex_append_length]
  · apply countB_append_singleton_pos
    simp only [hcb1]
    rw [getD_append_length]
    exact hRf

/-- Witness for C7 at a concrete two-store environment. -/
theorem C7_round_trip_witness :
    ∃ (res1 res2 : SessionMigrationResult) (env1 env2 : Env),
      migrateSession (twoEnv "/h" waF wbF ⟨[sAF], true, some 1⟩
          ⟨[], false, none⟩ false [] []) "s1"
          ⟨"/b", .move, false, false⟩ = (.ok res1, env1) ∧
      res1.success = true ∧
      migrateSession env1 "s1" ⟨"/a", .move, false, false⟩ = (.ok res2, env2) ∧
      res2.success = true ∧
      (∃ ca' cb' : ComposerData,
        getComposerData env2 waF.dbPath = some ca' ∧
        getComposerData env2 wbF.dbPath = some cb' ∧
        ca'.composers.length = [sAF].length ∧
        cb'.composers.length = ([] : List Session).length ∧
        0 < countB (sessionMatches "s1") ca'.composers) := by
  have := C7_round_trip "/h" waF wbF ⟨[sAF], true, some 1⟩ ⟨[], false, none⟩
    false [] [] "s1" "/b" "/a" false (by decide) (by decide) (by decide)
    (by decide) (by decide) (by decide) (by decide)
  simpa using this



/-- Helper: a list of all-successful results has no failures. -/
theorem filter_not_success_nil {l : List SessionMigrationResult}
    (h : ∀ r ∈ l, r.success = true) :
    (l.filter fun x => !x.success) = [] := by
  induction l with
  | nil => rfl
  | cons a as ih =>
    have ha := h a (List.mem_cons_self a as)
    have hrest : ∀ r ∈ as, r.success = true := fun r hr =>
      h r (List.mem_cons_of_mem a hr)
    simp [List.filter_cons, ha, ih hrest]

/-- The `home` field of a two-store universe. -/
theorem twoEnv_home (home : String) (wa wb : Workspace) (ca cb : ComposerData)
    (gex : Bool) (gkv : List (String × GVal)) (st : List Nat) :
    (twoEnv home wa wb ca cb gex gkv st).home = home := rfl

/-- Helper: the batch loop, in move mode over a two-store universe, drains
the source array in order and appends every record to the destination array;
every produced result is a success. -/
theorem migrateSessionsGo_move_twoEnv (home : String) (wa wb : Workspace)
    (gex : Bool) (gkv : List (String × GVal)) (st : List Nat)
    (dest : String) (frc : Bool) (fa fb : Bool) (ra rb : Option Nat)
    (hdb : wa.dbPath ≠ wb.dbPath)
    (hpA : pathsEqual home wa.path (normalizePath home dest) = false)
    (hpB : pathsEqual home wb.path (normalizePath home dest) = true) :
    ∀ (rem acc : List Session),
      (∀ s ∈ rem, s.composerId.isSome) →
      ∃ results : List SessionMigrationResult,
        migrateSessionsGo ⟨dest, .move, false, frc⟩
            (twoEnv home wa wb ⟨rem, fa, ra⟩ ⟨acc, fb, rb⟩ gex gkv st)
            (rem.filterMap Session.composerId)
          = (results,
             twoEnv home wa wb ⟨[], fa, ra⟩ ⟨acc ++ rem, fb, rb⟩ gex gkv st) ∧
        (∀ r ∈ results, r.success = true) := by
  intro rem
  induction rem with
  | nil =>
    intro acc _
    exact ⟨[], by simp [migrateSessionsGo, List.filterMap_nil], by simp⟩
  | cons s rest ih =>
    intro acc hids
    obtain ⟨sid, hsid⟩ := Option.isSome_iff_exists.mp
      (hids s (List.mem_cons_self s rest))
    have hrest : ∀ x ∈ rest, x.composerId.isSome := fun x hx =>
      hids x (List.mem_cons_of_mem s hx)
    have hmatch : sessionMatches sid s = true := by
      simp [sessionMatches, hsid]
    have hfi : findIndexOpt (sessionMatches sid) (s :: rest) = some 0 := by
      simp [findIndexOpt, hmatch]
    have e1 := migrateSession_move_spec
      (twoEnv home wa wb ⟨s :: rest, fa, ra⟩ ⟨acc, fb, rb⟩ gex gkv st) sid
      dest frc wa wb ⟨s :: rest, fa, ra⟩ 0
      (twoEnv_findA home wa wb _ _ gex gkv st sid
        (by simp [List.any_cons, hmatch]))
      hpA
      (twoEnv_byPathB home wa wb _ _ gex gkv st _ hpA hpB)
      (twoEnv_getA home wa wb _ _ gex gkv st)
      hfi
    rw [twoEnv_getB home wa wb _ _ gex gkv st hdb] at e1
    simp only [twoEnv_home, Option.map_some', Option.getD_some, Option.some_bind,
      removeIndex, List.getD_cons_zero] at e1
    rw [twoEnv_setA home wa wb _ _ gex gkv st] at e1
    rw [twoEnv_setB home wa wb _ _ gex gkv st _ _ _ hdb] at e1
    obtain ⟨results', hgo, hsucc⟩ := ih (acc ++ [s]) hrest
    refine ⟨{ success := true, sessionId := sid, sourceWorkspace := wa.path,
              destinationWorkspace := normalizePath home dest, mode := .move,
              newSessionId := none, error := none, dryRun := false } :: results',
      ?_, ?_⟩
    · rw [List.filterMap_cons]
      rw [hsid]
      unfold migrateSessionsGo
      dsimp only
      rw [e1]
      dsimp only
      rw [hgo]
      simp
    · intro r hr
      rcases List.mem_cons.mp hr with rfl | hr2
      · rfl
      · exact hsucc r hr2

/- ===== C5 ===== -/

/-- C5: destination guard. Over a two-store universe with arbitrary
contents: (a) when the destination store owns at least one record and
`force` is not set, `migrateWorkspace` fails with
`DestinationHasSessionsError` (DESTINATION_NOT_EMPTY) before any mutation,
returning the state unchanged; (b) with `force` set (move mode, all source
records carrying string identifiers), it succeeds and the destination array
ends up as its pre-existing records followed by all of the source's records
— the union, overwriting none of the destination's pre-existing records —
while the source array is drained. -/
theorem C5_destination_guard :
    (∀ (home : String) (wa wb : Workspace) (ca cb : ComposerData)
        (gex : Bool) (gkv : List (String × GVal)) (st : List Nat)
        (opts : MigrateWorkspaceOptions),
      wa.dbPath ≠ wb.dbPath →
      pathsEqual home (normalizePath home opts.source)
          (normalizePath home opts.destination) = false →
      pathsEqual home wa.path (normalizePath home opts.source) = true →
      pathsEqual home wa.path (normalizePath home opts.destination) = false →
      pathsEqual home wb.path (normalizePath home opts.destination) = true →
      ca.composers ≠ [] →
      opts.force = false →
      0 < cb.composers.length →
      migrateWorkspace (twoEnv home wa wb ca cb gex gkv st) opts =
        (.error (.destinationHasSessions
            (normalizePath home opts.destination) cb.composers.length),
         twoEnv home wa wb ca cb gex gkv st)) ∧
    (∀ (home : String) (wa wb : Workspace) (ca cb : ComposerData)
        (gex : Bool) (gkv : List (String × GVal)) (st : List Nat)
        (opts : MigrateWorkspaceOptions),
      wa.dbPath ≠ wb.dbPath →
      pathsEqual home (normalizePath home opts.source)
          (normalizePath home opts.destination) = false →
      pathsEqual home wa.path (normalizePath home opts.source) = true →
      pathsEqual home wa.path (normalizePath home opts.destination) = false →
      pathsEqual home wb.path (normalizePath home opts.destination) = true →
      pathsEqual home wa.path
          (normalizePath home (normalizePath home opts.destination)) = false →
      pathsEqual home wb.path
          (normalizePath home (normalizePath home opts.destination)) = true →
      ca.composers ≠ [] →
      (∀ s ∈ ca.composers, s.composerId.isSome) →
      opts.force = true →
      opts.dryRun = false →
      opts.mode = .move →
      ∃ r : WorkspaceMigrationResult,
        migrateWorkspace (twoEnv home wa wb ca cb gex gkv st) opts =
          (.ok r,
           twoEnv home wa wb ⟨[], ca.isNewFormat, ca.rawData⟩
             ⟨cb.composers ++ ca.composers, cb.isNewFormat, cb.rawData⟩
             gex gkv st) ∧
        r.success = true) := by
  constructor
  · intro home wa wb ca cb gex gkv st opts hdb hsd hsp hdA hdB hca hforce hcb
    unfold migrateWorkspace
    dsimp only
    simp only [twoEnv_home]
    rw [hsd]
    simp only [Bool.false_eq_true, if_false]
    rw [twoEnv_byPathA home wa wb ca cb gex gkv st _ hsp]
    dsimp only
    rw [twoEnv_byPathB home wa wb ca cb gex gkv st _ hdA hdB]
    dsimp only
    rw [twoEnv_getA home wa wb ca cb gex gkv st]
    dsimp only
    have hlen : ¬ca.composers.length = 0 := by
      simpa [List.length_eq_zero] using hca
    simp only [hlen, if_false]
    rw [hforce]
    simp only [Bool.false_eq_true, if_false]
    rw [twoEnv_getB home wa wb ca cb gex gkv st hdb]
    dsimp only
    simp [hcb]
  · intro home wa wb ca cb gex gkv st opts hdb hsd hsp hdA hdB hpA2 hpB2 hca
      hids hforce hdry hmode
    obtain ⟨cal, caf, car⟩ := ca
    obtain ⟨cbl, cbf, cbr⟩ := cb
    dsimp only at hca hids ⊢
    unfold migrateWorkspace
    dsimp only
    simp only [twoEnv_home]
    rw [hsd]
    simp only [Bool.false_eq_true, if_false]
    rw [twoEnv_byPathA home wa wb _ _ gex gkv st _ hsp]
    dsimp only
    rw [twoEnv_byPathB home wa wb _ _ gex gkv st _ hdA hdB]
    dsimp only
    rw [twoEnv_getA home wa wb _ _ gex gkv st]
    dsimp only
    have hlen : ¬cal.length = 0 := by
      simpa [List.length_eq_zero] using hca
    simp only [hlen, if_false]
    rw [hforce]
    simp only [if_true]
    have hidlen : ¬(cal.filterMap Session.composerId).length = 0 := by
      cases cal with
      | nil => exact absurd rfl hca
      | cons s rest =>
        obtain ⟨sid, hsid⟩ := Option.isSome_iff_exists.mp
          (hids s (List.mem_cons_self s rest))
        simp [List.filterMap_cons, hsid]
    simp only [hidlen, if_false]
    obtain ⟨results, hgo, hsucc⟩ := migrateSessionsGo_move_twoEnv home wa wb
      gex gkv st (normalizePath home opts.destination) true caf cbf car cbr
      hdb hpA2 hpB2 cal cbl hids
    rw [hmode, hdry]
    unfold migrateSessions
    dsimp only
    rw [hgo]
    have hflt := filter_not_success_nil hsucc
    refine ⟨_, rfl, ?_⟩
    simp [hflt]

/-- Witness for C5 at concrete two-store environments: the guard fires
without `force`, and with `force` the destination ends up with the union. -/
theorem C5_destination_guard_witness :
    migrateWorkspace
        (twoEnv "/h" waF wbF ⟨[sAF], true, some 1⟩ ⟨[⟨some "t1", 9⟩], false, none⟩
          false [] [])
        ⟨"/a", "/b", .move, false, false⟩ =
      (.error (.destinationHasSessions "/b" 1),
       twoEnv "/h" waF wbF ⟨[sAF], true, some 1⟩ ⟨[⟨some "t1", 9⟩], false, none⟩
         false [] []) ∧
    (∃ r : WorkspaceMigrationResult,
      migrateWorkspace
          (twoEnv "/h" waF wbF ⟨[sAF], true, some 1⟩
            ⟨[⟨some "t1", 9⟩], false, none⟩ false [] [])
          ⟨"/a", "/b", .move, false, true⟩ =
        (.ok r,
         twoEnv "/h" waF wbF ⟨[], true, some 1⟩
           ⟨[⟨some "t1", 9⟩] ++ [sAF], false, none⟩ false [] []) ∧
      r.success = true) := by
  constructor
  · have := C5_destination_guard.1 "/h" waF wbF ⟨[sAF], true, some 1⟩
      ⟨[⟨some "t1", 9⟩], false, none⟩ false [] []
      ⟨"/a", "/b", .move, false, false⟩ (by decide) (by decide) (by decide)
      (by decide) (by decide) (by decide) rfl (by decide)
    simpa using this
  · have := C5_destination_guard.2 "/h" waF wbF ⟨[sAF], true, some 1⟩
      ⟨[⟨some "t1", 9⟩], false, none⟩ false [] []
      ⟨"/a", "/b", .move, false, true⟩ (by decide) (by decide) (by decide)
      (by decide) (by decide) (by decide) (by decide) (by decide)
      (by intro s hs; simp at hs; rw [hs]; rfl) rfl rfl rfl
    simpa using this


/-! ## String, key and splitter lemmas for content replication -/

/-! ### String and key lemmas for the global-store key space -/

theorem strData_append (a b : String) : (a ++ b).data = a.data ++ b.data := rfl

theorem strEq_of_data {a b : String} (h : a.data = b.data) : a = b := by
  cases a; cases b; exact congrArg String.mk h

theorem leadsWith_self_append {α : Type} [DecidableEq α] :
    ∀ (p t : List α), leadsWith p (p ++ t) = true := by
  intro p t
  induction p with
  | nil => rfl
  | cons a as ih => simp [leadsWith, ih]

theorem leadsWith_iff {α : Type} [DecidableEq α] :
    ∀ (p l : List α), leadsWith p l = true ↔ ∃ t, l = p ++ t := by
  intro p
  induction p with
  | nil => intro l; simp [leadsWith]
  | cons a as ih =>
    intro l
    cases l with
    | nil => simp [leadsWith]
    | cons b bs =>
      simp only [leadsWith, Bool.and_eq_true, decide_eq_true_eq, ih bs]
      constructor
      · rintro ⟨rfl, t, rfl⟩
        exact ⟨t, rfl⟩
      · rintro ⟨t, ht⟩
        simp only [List.cons_append] at ht
        injection ht with h1 h2
        exact ⟨h1.symm, t, h2⟩

/-- Lists with a separator not occurring in either prefix split uniquely. -/
theorem sepInj {la lc lb ld : List Char}
    (ha : ':' ∉ la) (hc : ':' ∉ lc)
    (h : la ++ ':' :: lb = lc ++ ':' :: ld) : la = lc ∧ lb = ld := by
  induction la generalizing lc with
  | nil =>
    cases lc with
    | nil => simpa using h
    | cons c cs =>
      simp only [List.nil_append, List.cons_append, List.cons.injEq] at h
      exact absurd (h.1 ▸ List.mem_cons_self c cs : (':' : Char) ∈ c :: cs)
        (by rw [← h.1] at hc; exact fun hco => hc (h.1 ▸ hco))
  | cons a as ih =>
    cases lc with
    | nil =>
      simp only [List.cons_append, List.nil_append, List.cons.injEq] at h
      exact absurd (h.1 ▸ List.mem_cons_self a as) (by
        intro hco
        exact ha (h.1 ▸ List.mem_cons_self a as))
    | cons c cs =>
      simp only [List.cons_append, List.cons.injEq] at h
      obtain ⟨rfl, h2⟩ := h
      have ha' : ':' ∉ as := fun hx => ha (List.mem_cons_of_mem _ hx)
      have hc' : ':' ∉ cs := fun hx => hc (List.mem_cons_of_mem _ hx)
      obtain ⟨rfl, rfl⟩ := ih ha' hc' h2
      exact ⟨rfl, rfl⟩



theorem bubPrefix_data :
    "bubbleId:".data = "bubbleId".data ++ [':'] := rfl

theorem colon_data : ":".data = [':'] := rfl

theorem bubKey_data (a b : String) :
    ("bubbleId:" ++ a ++ ":" ++ b).data =
      "bubbleId:".data ++ (a.data ++ ':' :: b.data) := by
  simp [strData_append, colon_data]

theorem bubPfx_data (a : String) :
    ("bubbleId:" ++ a ++ ":").data = "bubbleId:".data ++ (a.data ++ [':']) := by
  simp [strData_append, colon_data]

/-- Bubble keys are injective in both components when the composer ids are
colon-free. -/
theorem bubKey_inj {a b c d : String}
    (ha : ':' ∉ a.data) (hc : ':' ∉ c.data)
    (h : ("bubbleId:" ++ a ++ ":" ++ b) = ("bubbleId:" ++ c ++ ":" ++ d)) :
    a = c ∧ b = d := by
  have hd := congrArg String.data h
  rw [bubKey_data, bubKey_data] at hd
  have hd2 := List.append_cancel_left hd
  obtain ⟨h1, h2⟩ := sepInj ha hc hd2
  exact ⟨strEq_of_data h1, strEq_of_data h2⟩

/-- A composer-data key never equals a bubble key. -/
theorem composer_ne_bubKey (x a b : String) :
    ("composerData:" ++ x) ≠ ("bubbleId:" ++ a ++ ":" ++ b) := by
  intro h
  have hd := congrArg String.data h
  rw [strData_append, bubKey_data] at hd
  have e1 : "composerData:".data = 'c' :: "omposerData:".data := rfl
  have e2 : "bubbleId:".data = 'b' :: "ubbleId:".data := rfl
  rw [e1, e2] at hd
  simp only [List.cons_append, List.cons.injEq] at hd
  exact absurd hd.1 (by decide)

/-- Composer-data keys are injective. -/
theorem composerKey_inj {x y : String}
    (h : ("composerData:" ++ x) = ("composerData:" ++ y)) : x = y := by
  have hd := congrArg String.data h
  rw [strData_append, strData_append] at hd
  exact strEq_of_data (List.append_cancel_left hd)

theorem strLike_append (p t : String) : strLike p (p ++ t) = true := by
  unfold strLike
  rw [strData_append]
  exact leadsWith_self_append _ _

/-- A key with the old bubble prefix is never a new bubble key when the two
composer ids are colon-free and distinct. -/
theorem strLike_old_ne_newKey {oldId newId : String} (k : String)
    (hold : ':' ∉ oldId.data) (hnew : ':' ∉ newId.data)
    (hne : oldId ≠ newId)
    (hk : strLike ("bubbleId:" ++ oldId ++ ":") k = true) :
    ∀ nb, k ≠ ("bubbleId:" ++ newId ++ ":" ++ nb) := by
  intro nb hkey
  obtain ⟨t, ht⟩ := (leadsWith_iff _ _).mp hk
  rw [hkey] at ht
  rw [bubKey_data, bubPfx_data] at ht
  rw [List.append_assoc] at ht
  have hd2 := List.append_cancel_left ht
  rw [List.append_assoc, List.singleton_append] at hd2
  obtain ⟨h1, _⟩ := sepInj hold hnew hd2.symm
  exact hne (strEq_of_data h1)

/-- A composer-data key never carries a bubble prefix. -/
theorem strLike_bub_composer (a x : String) :
    strLike ("bubbleId:" ++ a ++ ":") ("composerData:" ++ x) = false := by
  cases hv : strLike ("bubbleId:" ++ a ++ ":") ("composerData:" ++ x) with
  | false => rfl
  | true =>
    obtain ⟨t, ht⟩ := (leadsWith_iff _ _).mp hv
    rw [strData_append, bubPfx_data] at ht
    have e1 : "composerData:".data = 'c' :: "omposerData:".data := rfl
    have e2 : "bubbleId:".data = 'b' :: "ubbleId:".data := rfl
    rw [e1, e2] at ht
    simp only [List.append_assoc, List.cons_append, List.cons.injEq] at ht
    exact absurd ht.1 (by decide)

/-! ### `splitOnChar` lemmas -/

theorem splitOnChar_no_sep {c : Char} :
    ∀ {l : List Char}, c ∉ l → splitOnChar c l = [l] := by
  intro l
  induction l with
  | nil => intro _; rfl
  | cons a as ih =>
    intro h
    have ha : ¬a = c := fun hh =>
      h (hh ▸ List.mem_cons_self a as)
    have has : c ∉ as := fun hh => h (List.mem_cons_of_mem a hh)
    simp [splitOnChar, ha, ih has]

theorem splitOnChar_sep {c : Char} :
    ∀ {l : List Char} (r : List Char), c ∉ l →
      splitOnChar c (l ++ c :: r) = l :: splitOnChar c r := by
  intro l
  induction l with
  | nil => intro r _; simp [splitOnChar]
  | cons a as ih =>
    intro r h
    have ha : ¬a = c := fun hh => h (hh ▸ List.mem_cons_self a as)
    have has : c ∉ as := fun hh => h (List.mem_cons_of_mem a hh)
    simp only [List.cons_append, splitOnChar, List.append_eq]
    rw [ih r has]
    simp [ha]

/-- JS `key.split(':')[2]` of a well-formed bubble key is the bubble id. -/
theorem splitOnChar_bubKey {a b : String}
    (ha : ':' ∉ a.data) (hb : ':' ∉ b.data) :
    (splitOnChar ':' ("bubbleId:" ++ a ++ ":" ++ b).data).get? 2
      = some b.data := by
  have hshape : ("bubbleId:" ++ a ++ ":" ++ b).data
      = "bubbleId".data ++ ':' :: (a.data ++ ':' :: b.data) := by
    rw [bubKey_data, bubPrefix_data]
    simp [List.append_assoc]
  rw [hshape]
  rw [splitOnChar_sep _ (by decide)]
  rw [splitOnChar_sep _ ha]
  rw [splitOnChar_no_sep hb]
  rfl



/-! ### Association-list facts for the replication proof -/

theorem assocGet_mem_values {α : Type} :
    ∀ {l : List (String × α)} {k : String} {v : α},
      assocGet l k = some v → v ∈ l.map Prod.snd := by
  intro l
  induction l with
  | nil => intro k v h; simp [assocGet] at h
  | cons hd t ih =>
    intro k v h
    obtain ⟨k1, v1⟩ := hd
    by_cases hk : k1 = k
    · simp [assocGet, hk] at h
      simp [← h]
    · simp only [assocGet, hk, if_false] at h
      simp [ih h]

theorem assocGet_mem {α : Type} :
    ∀ {l : List (String × α)} {k : String} {v : α},
      assocGet l k = some v → (k, v) ∈ l := by
  intro l
  induction l with
  | nil => intro k v h; simp [assocGet] at h
  | cons hd t ih =>
    intro k v h
    obtain ⟨k1, v1⟩ := hd
    by_cases hk : k1 = k
    · subst hk
      simp [assocGet] at h
      simp [← h]
    · simp only [assocGet, hk, if_false] at h
      simp [ih h]

/-- In an association list with pairwise-distinct values, different keys are
bound to different values. -/
theorem assoc_values_nodup_ne {α : Type} :
    ∀ {l : List (String × α)} {k1 k2 : String} {v1 v2 : α},
      (l.map Prod.snd).Nodup →
      assocGet l k1 = some v1 → assocGet l k2 = some v2 →
      k1 ≠ k2 → v1 ≠ v2 := by
  intro l
  induction l with
  | nil => intro k1 k2 v1 v2 _ h1; simp [assocGet] at h1
  | cons hd t ih =>
    intro k1 k2 v1 v2 hnd h1 h2 hk
    obtain ⟨k0, v0⟩ := hd
    simp only [List.map_cons, List.nodup_cons] at hnd
    by_cases e1 : k0 = k1
    · subst e1
      simp [assocGet] at h1
      have e2 : ¬k0 = k2 := fun hh => hk (hh ▸ rfl)
      simp only [assocGet, e2, if_false] at h2
      intro hv
      refine hnd.1 ?_
      rw [h1, hv]
      exact assocGet_mem_values h2
    · simp only [assocGet, e1, if_false] at h1
      by_cases e2 : k0 = k2
      · subst e2
        simp [assocGet] at h2
        intro hv
        refine hnd.1 ?_
        rw [h2, ← hv]
        exact assocGet_mem_values h1
      · simp only [assocGet, e2, if_false] at h2
        exact ih hnd.2 h1 h2 hk

theorem mem_assocSet {α : Type} :
    ∀ {l : List (String × α)} {k : String} {v : α} {x : String × α},
      x ∈ assocSet l k v → x ∈ l ∨ x = (k, v) := by
  intro l
  induction l with
  | nil => intro k v x h; simp [assocSet] at h; simp [h]
  | cons hd t ih =>
    intro k v x h
    obtain ⟨k1, v1⟩ := hd
    by_cases hk : k1 = k
    · simp only [assocSet, hk, if_true] at h
      rcases List.mem_cons.mp h with rfl | h2
      · right; rfl
      · left; exact List.mem_cons_of_mem _ h2
    · simp only [assocSet, hk, if_false] at h
      rcases List.mem_cons.mp h with rfl | h2
      · left; exact List.mem_cons_self _ _
      · rcases ih h2 with h3 | h3
        · left; exact List.mem_cons_of_mem _ h3
        · right; exact h3

theorem assocSet_keys_nodup {α : Type} :
    ∀ {l : List (String × α)} (k : String) (v : α),
      (l.map Prod.fst).Nodup → ((assocSet l k v).map Prod.fst).Nodup := by
  intro l
  induction l with
  | nil => intro k v _; simp [assocSet]
  | cons hd t ih =>
    intro k v hnd
    obtain ⟨k1, v1⟩ := hd
    simp only [List.map_cons, List.nodup_cons] at hnd
    by_cases hk : k1 = k
    · subst hk
      simp only [assocSet, if_true]
      simp only [List.map_cons, List.nodup_cons]
      exact hnd
    · simp only [assocSet, hk, if_false, List.map_cons, List.nodup_cons]
      constructor
      · intro hmem
        -- k1 appears among keys of assocSet t k v: it is a key of t or k
        have : k1 ∈ t.map Prod.fst ∨ k1 = k := by
          rcases List.mem_map.mp hmem with ⟨⟨ka, va⟩, hka, hfst⟩
          rcases mem_assocSet hka with h3 | h3
          · left; exact hfst ▸ List.mem_map_of_mem Prod.fst h3
          · right; rw [← hfst, h3]
        rcases this with h3 | h3
        · exact hnd.1 h3
        · exact hk h3
      · exact ih k v hnd.2



theorem strMk_data (s : String) : String.mk s.data = s := rfl

theorem data_ne_nil_of_ne_empty {b : String} (h : b ≠ "") : ¬b.data = [] :=
  fun hd => h (strEq_of_data (by rw [hd]))

/-! ### Header-rewrite (`genHeaders`) lemmas -/

/-- `genHeaders` does not touch map entries whose key is not among the
headers' bubble ids. -/
theorem genHeaders_map_outside :
    ∀ (hs : List Header) (m : List (String × String)) (s : List Nat)
      (b : String), b ∉ hs.filterMap Header.bubbleId →
      assocGet (genHeaders m hs s).1 b = assocGet m b := by
  intro hs
  induction hs with
  | nil => intro m s b _; rfl
  | cons h0 rest ih =>
    intro m s b hb
    cases hh0 : h0.bubbleId with
    | none =>
      rw [List.filterMap_cons, hh0] at hb
      simp only [genHeaders, hh0]
      exact ih m s b hb
    | some b0 =>
      rw [List.filterMap_cons, hh0] at hb
      have hbne : b ≠ b0 := fun hh => hb (hh ▸ List.mem_cons_self b0 _)
      have hbrest : b ∉ rest.filterMap Header.bubbleId := fun hh =>
        hb (List.mem_cons_of_mem b0 hh)
      by_cases hb0 : b0 = ""
      · simp only [genHeaders, hh0, hb0, if_true]
        exact ih m s b hbrest
      · simp only [genHeaders, hh0, hb0, if_false]
        rw [ih _ _ b hbrest]
        exact assocGet_set_ne _ _ _ _ hbne

/-- `genHeaders` maps every truthy header bubble id to a fresh id and emits
the corresponding rewritten header. -/
theorem genHeaders_covers :
    ∀ (hs : List Header) (m : List (String × String)) (s : List Nat),
      (hs.filterMap Header.bubbleId).Nodup →
      ∀ h ∈ hs, ∀ b, h.bubbleId = some b → b ≠ "" →
        ∃ nb, assocGet (genHeaders m hs s).1 b = some nb ∧
          { h with bubbleId := some nb } ∈ (genHeaders m hs s).2.1 := by
  intro hs
  induction hs with
  | nil => intro m s _ h hmem; simp at hmem
  | cons h0 rest ih =>
    intro m s hnd h hmem b hb hbne
    cases hh0 : h0.bubbleId with
    | none =>
      rw [List.filterMap_cons, hh0] at hnd
      simp only [genHeaders, hh0]
      rcases List.mem_cons.mp hmem with rfl | hmem2
      · rw [hh0] at hb; cases hb
      · exact ih m s hnd h hmem2 b hb hbne
    | some b0 =>
      rw [List.filterMap_cons, hh0] at hnd
      rw [List.nodup_cons] at hnd
      by_cases hb0 : b0 = ""
      · simp only [genHeaders, hh0, hb0, if_true]
        rcases List.mem_cons.mp hmem with rfl | hmem2
        · rw [hh0] at hb
          injection hb with hb
          exact absurd (hb ▸ hb0) hbne
        · exact ih m s hnd.2 h hmem2 b hb hbne
      · simp only [genHeaders, hh0, hb0, if_false]
        rcases List.mem_cons.mp hmem with rfl | hmem2
        · rw [hh0] at hb
          injection hb with hb
          subst hb
          refine ⟨(generateSessionId s).1, ?_, ?_⟩
          · rw [genHeaders_map_outside _ _ _ b0 hnd.1]
            exact assocGet_set_eq _ _ _
          · exact List.mem_cons_self _ _
        · obtain ⟨nb, hget, hmem3⟩ := ih (assocSet m b0 (generateSessionId s).1)
            (generateSessionId s).2 hnd.2 h hmem2 b hb hbne
          exact ⟨nb, hget, List.mem_cons_of_mem _ hmem3⟩

/-! ### Bubble-copy (`copyBubbles`) lemmas -/

/-- The bubble-id map only grows during the copy loop. -/
theorem copyBubbles_map_mono (nid : String) :
    ∀ (rows : List (String × GVal)) (m : List (String × String))
      (kv : List (String × GVal)) (s : List Nat) (b nb : String),
      assocGet m b = some nb →
      assocGet (copyBubbles nid rows m kv s).1 b = some nb := by
  intro rows
  induction rows with
  | nil => intro m kv s b nb hm; exact hm
  | cons row rest ih =>
    intro m kv s b nb hm
    obtain ⟨k, v⟩ := row
    cases hsp : (splitOnChar ':' k.data).get? 2 with
    | none => simp only [copyBubbles, hsp]; exact ih _ _ _ _ _ hm
    | some obl =>
      by_cases hol : obl = []
      · simp only [copyBubbles, hsp, hol, if_true]
        exact ih _ _ _ _ _ hm
      · simp only [copyBubbles, hsp, hol, if_false]
        cases hget : assocGet m (String.mk obl) with
        | some nb0 => exact ih _ _ _ _ _ hm
        | none =>
          have hne : b ≠ String.mk obl := fun hh => by
            rw [← hh] at hget
            rw [hget] at hm
            cases hm
          exact ih _ _ _ _ _ ((assocGet_set_ne m _ _ _ hne).symm ▸ hm)

/-- The copy loop writes only keys of the form
`bubbleId:<newComposerId>:<nb>`. -/
theorem copyBubbles_kv_outside (nid : String) :
    ∀ (rows : List (String × GVal)) (m : List (String × String))
      (kv : List (String × GVal)) (s : List Nat) (k : String),
      (∀ x, k ≠ "bubbleId:" ++ nid ++ ":" ++ x) →
      assocGet (copyBubbles nid rows m kv s).2.1 k = assocGet kv k := by
  intro rows
  induction rows with
  | nil => intro m kv s k _; rfl
  | cons row rest ih =>
    intro m kv s k hk
    obtain ⟨k0, v0⟩ := row
    cases hsp : (splitOnChar ':' k0.data).get? 2 with
    | none => simp only [copyBubbles, hsp]; exact ih _ _ _ _ hk
    | some obl =>
      by_cases hol : obl = []
      · simp only [copyBubbles, hsp, hol, if_true]
        exact ih _ _ _ _ hk
      · simp only [copyBubbles, hsp, hol, if_false]
        cases hget : assocGet m (String.mk obl) with
        | some nb0 =>
          rw [ih _ _ _ _ hk]
          exact assocGet_set_ne _ _ _ _ (hk nb0)
        | none =>
          rw [ih _ _ _ _ hk]
          exact assocGet_set_ne _ _ _ _ (hk _)



/-- Once a bubble id `b` is mapped to `nb` and `b` is not among the remaining
rows, the key `bubbleId:<nid>:<nb>` is never written by the rest of the copy
loop (the generated and mapped ids are pairwise distinct by the value-nodup
hypothesis on the final map). -/
theorem copyBubbles_settled (nid oldId : String) (hnidc : ':' ∉ nid.data) :
    ∀ (rows : List (String × GVal)) (m : List (String × String))
      (kv : List (String × GVal)) (s : List Nat) (b nb : String),
      ((copyBubbles nid rows m kv s).1.map Prod.snd).Nodup →
      assocGet m b = some nb →
      (∀ x ∈ rows, ∃ b', x.1 = "bubbleId:" ++ oldId ++ ":" ++ b' ∧
        ':' ∉ b'.data ∧ b' ≠ "" ∧ b' ≠ b) →
      (':' ∉ oldId.data) →
      assocGet (copyBubbles nid rows m kv s).2.1
          ("bubbleId:" ++ nid ++ ":" ++ nb)
        = assocGet kv ("bubbleId:" ++ nid ++ ":" ++ nb) := by
  intro rows
  induction rows with
  | nil => intro m kv s b nb _ _ _ _; rfl
  | cons row rest ih =>
    intro m kv s b nb hnd hm hwf holdc
    obtain ⟨k0, v0⟩ := row
    obtain ⟨b', hkey, hb'c, hb'ne, hb'b⟩ := hwf (k0, v0) (List.mem_cons_self _ _)
    dsimp only at hkey
    have hsp : (splitOnChar ':' k0.data).get? 2 = some b'.data := by
      rw [hkey]
      exact splitOnChar_bubKey holdc hb'c
    have holn : ¬b'.data = [] := data_ne_nil_of_ne_empty hb'ne
    have hwfrest : ∀ x ∈ rest, ∃ b'', x.1 = "bubbleId:" ++ oldId ++ ":" ++ b'' ∧
        ':' ∉ b''.data ∧ b'' ≠ "" ∧ b'' ≠ b := fun x hx =>
      hwf x (List.mem_cons_of_mem _ hx)
    cases hget : assocGet m b' with
    | some nb0 =>
      have hstep : copyBubbles nid ((k0, v0) :: rest) m kv s =
          copyBubbles nid rest m
            (assocSet kv ("bubbleId:" ++ nid ++ ":" ++ nb0)
              { v0 with bubbleId := some nb0 }) s := by
        simp only [copyBubbles, hsp, holn, if_false, strMk_data, hget]
      rw [hstep] at hnd ⊢
      have hfb' := copyBubbles_map_mono nid rest m
        (assocSet kv ("bubbleId:" ++ nid ++ ":" ++ nb0)
          { v0 with bubbleId := some nb0 }) s b' nb0 hget
      have hfb := copyBubbles_map_mono nid rest m
        (assocSet kv ("bubbleId:" ++ nid ++ ":" ++ nb0)
          { v0 with bubbleId := some nb0 }) s b nb hm
      have hnbne : nb0 ≠ nb :=
        assoc_values_nodup_ne hnd hfb' hfb hb'b
      rw [ih m _ s b nb hnd hm hwfrest holdc]
      refine assocGet_set_ne _ _ _ _ ?_
      intro hkeq
      exact hnbne ((bubKey_inj hnidc hnidc hkeq.symm).2.symm).symm
    | none =>
      have hbne : b ≠ b' := fun hh => hb'b hh.symm
      have hm' : assocGet (assocSet m b' (generateSessionId s).1) b = some nb := by
        rw [assocGet_set_ne _ _ _ _ hbne]
        exact hm
      have hstep : copyBubbles nid ((k0, v0) :: rest) m kv s =
          copyBubbles nid rest (assocSet m b' (generateSessionId s).1)
            (assocSet kv ("bubbleId:" ++ nid ++ ":" ++ (generateSessionId s).1)
              { v0 with bubbleId := some (generateSessionId s).1 })
            (generateSessionId s).2 := by
        simp only [copyBubbles, hsp, holn, if_false, strMk_data, hget]
      rw [hstep] at hnd ⊢
      have hfb' := copyBubbles_map_mono nid rest
        (assocSet m b' (generateSessionId s).1)
        (assocSet kv ("bubbleId:" ++ nid ++ ":" ++ (generateSessionId s).1)
          { v0 with bubbleId := some (generateSessionId s).1 })
        (generateSessionId s).2 b' (generateSessionId s).1
        (assocGet_set_eq _ _ _)
      have hfb := copyBubbles_map_mono nid rest
        (assocSet m b' (generateSessionId s).1)
        (assocSet kv ("bubbleId:" ++ nid ++ ":" ++ (generateSessionId s).1)
          { v0 with bubbleId := some (generateSessionId s).1 })
        (generateSessionId s).2 b nb hm'
      have hnbne : (generateSessionId s).1 ≠ nb :=
        assoc_values_nodup_ne hnd hfb' hfb hb'b
      rw [ih _ _ _ b nb hnd hm' hwfrest holdc]
      refine assocGet_set_ne _ _ _ _ ?_
      intro hkeq
      exact hnbne ((bubKey_inj hnidc hnidc hkeq.symm).2.symm).symm

/-- Every row whose bubble id is already mapped to `nb` is duplicated under
`bubbleId:<nid>:<nb>` with its `bubbleId` field rewritten. -/
theorem copyBubbles_duplicates (nid oldId : String)
    (hnidc : ':' ∉ nid.data) (holdc : ':' ∉ oldId.data) :
    ∀ (rows : List (String × GVal)) (m : List (String × String))
      (kv : List (String × GVal)) (s : List Nat) (b nb : String) (v : GVal),
      ((copyBubbles nid rows m kv s).1.map Prod.snd).Nodup →
      assocGet m b = some nb →
      ("bubbleId:" ++ oldId ++ ":" ++ b, v) ∈ rows →
      (∀ x ∈ rows, ∃ b', x.1 = "bubbleId:" ++ oldId ++ ":" ++ b' ∧
        ':' ∉ b'.data ∧ b' ≠ "") →
      (rows.map Prod.fst).Nodup →
      (':' ∉ b.data) → b ≠ "" →
      assocGet (copyBubbles nid rows m kv s).2.1
          ("bubbleId:" ++ nid ++ ":" ++ nb)
        = some { v with bubbleId := some nb } := by
  intro rows
  induction rows with
  | nil => intro m kv s b nb v _ _ hmem; simp at hmem
  | cons row rest ih =>
    intro m kv s b nb v hnd hm hmem hwf hknd hbc hbne
    obtain ⟨k0, v0⟩ := row
    simp only [List.map_cons, List.nodup_cons] at hknd
    rcases List.mem_cons.mp hmem with heq | hmem2
    · -- the head row is the one being tracked
      have hk0 : k0 = "bubbleId:" ++ oldId ++ ":" ++ b := (Prod.mk.injEq _ _ _ _ ▸ heq).1.symm
      have hv0 : v0 = v := (Prod.mk.injEq _ _ _ _ ▸ heq).2.symm
      subst hk0
      subst hv0
      have hsp : (splitOnChar ':' ("bubbleId:" ++ oldId ++ ":" ++ b).data).get? 2
          = some b.data := splitOnChar_bubKey holdc hbc
      have holn : ¬b.data = [] := data_ne_nil_of_ne_empty hbne
      have hstep : copyBubbles nid (("bubbleId:" ++ oldId ++ ":" ++ b, v0) :: rest) m kv s =
          copyBubbles nid rest m
            (assocSet kv ("bubbleId:" ++ nid ++ ":" ++ nb)
              { v0 with bubbleId := some nb }) s := by
        simp only [copyBubbles, hsp, holn, if_false, strMk_data, hm]
      rw [hstep] at hnd ⊢
      have hwfrest : ∀ x ∈ rest, ∃ b', x.1 = "bubbleId:" ++ oldId ++ ":" ++ b' ∧
          ':' ∉ b'.data ∧ b' ≠ "" ∧ b' ≠ b := by
        intro x hx
        obtain ⟨b', h1, h2, h3⟩ := hwf x (List.mem_cons_of_mem _ hx)
        refine ⟨b', h1, h2, h3, ?_⟩
        intro hbb
        subst hbb
        exact hknd.1 (h1 ▸ List.mem_map_of_mem Prod.fst hx)
      rw [copyBubbles_settled nid oldId hnidc rest m _ s b nb hnd hm hwfrest holdc]
      exact assocGet_set_eq _ _ _
    · -- the tracked row is further down
      obtain ⟨b0, hk0, hb0c, hb0ne⟩ := hwf (k0, v0) (List.mem_cons_self _ _)
      dsimp only at hk0
      have hsp : (splitOnChar ':' k0.data).get? 2 = some b0.data := by
        rw [hk0]
        exact splitOnChar_bubKey holdc hb0c
      have holn : ¬b0.data = [] := data_ne_nil_of_ne_empty hb0ne
      have hwfrest : ∀ x ∈ rest, ∃ b', x.1 = "bubbleId:" ++ oldId ++ ":" ++ b' ∧
          ':' ∉ b'.data ∧ b' ≠ "" := fun x hx => hwf x (List.mem_cons_of_mem _ hx)
      cases hget : assocGet m b0 with
      | some nb0 =>
        have hstep : copyBubbles nid ((k0, v0) :: rest) m kv s =
            copyBubbles nid rest m
              (assocSet kv ("bubbleId:" ++ nid ++ ":" ++ nb0)
                { v0 with bubbleId := some nb0 }) s := by
          simp only [copyBubbles, hsp, holn, if_false, strMk_data, hget]
        rw [hstep] at hnd ⊢
        exact ih m _ s b nb v hnd hm hmem2 hwfrest hknd.2 hbc hbne
      | none =>
        have hbb0 : b ≠ b0 := by
          intro hh
          subst hh
          exact hknd.1 (hk0 ▸ List.mem_map_of_mem Prod.fst hmem2)
        have hm' : assocGet (assocSet m b0 (generateSessionId s).1) b = some nb := by
          rw [assocGet_set_ne _ _ _ _ hbb0]
          exact hm
        have hstep : copyBubbles nid ((k0, v0) :: rest) m kv s =
            copyBubbles nid rest (assocSet m b0 (generateSessionId s).1)
              (assocSet kv ("bubbleId:" ++ nid ++ ":" ++ (generateSessionId s).1)
                { v0 with bubbleId := some (generateSessionId s).1 })
              (generateSessionId s).2 := by
          simp only [copyBubbles, hsp, holn, if_false, strMk_data, hget]
        rw [hstep] at hnd ⊢
        exact ih _ _ _ b nb v hnd hm' hmem2 hwfrest hknd.2 hbc hbne



/- ===== C8 ===== -/

/-- C8: content replication on copy. With the global store present, the
original record's `composerData:` row found, colon-free distinct composer
ids, unique keys in the global table, well-formed bubble keys, distinct
header bubble ids, and the freshly generated ids pairwise distinct (the
value-nodup hypothesis on the returned map — the statistical-uniqueness
assumption the spec makes): for every content-item id `b` referenced by the
original record's header list, `copyBubbleDataInGlobalStorage` maps `b` to
a fresh id `nb`, rewrites the corresponding header entry of the new record's
metadata to point at `nb`, and duplicates the content item (when present)
under the composite key `bubbleId:<newId>:<nb>` with its `bubbleId` field
rewritten; every `bubbleId:<oldId>:` row and the original `composerData:`
row are left untouched. -/
theorem C8_content_replication (env : Env) (oldId newId : String) (cd : GVal)
    (hex : env.globalExists = true)
    (hcd : assocGet env.globalKV ("composerData:" ++ oldId) = some cd)
    (holdc : ':' ∉ oldId.data) (hnewc : ':' ∉ newId.data)
    (hneid : oldId ≠ newId)
    (hknd : (env.globalKV.map Prod.fst).Nodup)
    (hrowswf : ∀ x ∈ env.globalKV,
      strLike ("bubbleId:" ++ oldId ++ ":") x.1 = true →
      ∃ b, x.1 = "bubbleId:" ++ oldId ++ ":" ++ b ∧ ':' ∉ b.data ∧ b ≠ "")
    (hhnd : ((cd.fullConversationHeadersOnly.getD []).filterMap
      Header.bubbleId).Nodup)
    (hvalsnd : ((copyBubbleDataInGlobalStorage env oldId newId).1.map
      Prod.snd).Nodup) :
    (∀ h ∈ cd.fullConversationHeadersOnly.getD [], ∀ b, h.bubbleId = some b →
      ':' ∉ b.data → b ≠ "" →
      ∃ nb,
        assocGet (copyBubbleDataInGlobalStorage env oldId newId).1 b
          = some nb ∧
        (∃ cd2, assocGet
            (copyBubbleDataInGlobalStorage env oldId newId).2.globalKV
            ("composerData:" ++ newId) = some cd2 ∧
          { h with bubbleId := some nb } ∈
            cd2.fullConversationHeadersOnly.getD []) ∧
        (∀ bv, assocGet env.globalKV ("bubbleId:" ++ oldId ++ ":" ++ b)
            = some bv →
          assocGet (copyBubbleDataInGlobalStorage env oldId newId).2.globalKV
              ("bubbleId:" ++ newId ++ ":" ++ nb)
            = some { bv with bubbleId := some nb })) ∧
    (∀ k, strLike ("bubbleId:" ++ oldId ++ ":") k = true →
      assocGet (copyBubbleDataInGlobalStorage env oldId newId).2.globalKV k
        = assocGet env.globalKV k) ∧
    (assocGet (copyBubbleDataInGlobalStorage env oldId newId).2.globalKV
        ("composerData:" ++ oldId)
      = assocGet env.globalKV ("composerData:" ++ oldId)) := by
  simp only [copyBubbleDataInGlobalStorage, hex, if_true, hcd] at hvalsnd ⊢
  refine ⟨?_, ?_, ?_⟩
  · -- per-header replication
    intro h hmem b hb hbc hbne
    obtain ⟨nb, hmap1, hheadmem⟩ := genHeaders_covers
      (cd.fullConversationHeadersOnly.getD []) [] env.idStream hhnd h hmem b
      hb hbne
    refine ⟨nb, ?_, ?_, ?_⟩
    · exact copyBubbles_map_mono newId _ _ _ _ b nb hmap1
    · refine ⟨{ cd with composerId := some newId, fullConversationHeadersOnly := some (genHeaders [] (cd.fullConversationHeadersOnly.getD []) env.idStream).2.1 }, ?_, ?_⟩
      · rw [copyBubbles_kv_outside newId _ _ _ _ _
          (fun x => composer_ne_bubKey newId newId x)]
        exact assocGet_set_eq _ _ _
      · simpa using hheadmem
    · intro bv hbv
      have hkne : ("bubbleId:" ++ oldId ++ ":" ++ b)
          ≠ ("composerData:" ++ newId) :=
        fun hh => composer_ne_bubKey newId oldId b hh.symm
      have hkv1get : assocGet (assocSet env.globalKV ("composerData:" ++ newId) { cd with composerId := some newId, fullConversationHeadersOnly := some (genHeaders [] (cd.fullConversationHeadersOnly.getD []) env.idStream).2.1 }) ("bubbleId:" ++ oldId ++ ":" ++ b) = some bv := by
        rw [assocGet_set_ne _ _ _ _ hkne]
        exact hbv
      have hrowpfx : strLike ("bubbleId:" ++ oldId ++ ":")
          ("bubbleId:" ++ oldId ++ ":" ++ b) = true := by
        have hsplit : ("bubbleId:" ++ oldId ++ ":" ++ b)
            = ("bubbleId:" ++ oldId ++ ":") ++ b :=
          strEq_of_data (by simp [strData_append])
        rw [hsplit]
        exact strLike_append _ _
      have hrowmem : ("bubbleId:" ++ oldId ++ ":" ++ b, bv) ∈ (assocSet env.globalKV ("composerData:" ++ newId) { cd with composerId := some newId, fullConversationHeadersOnly := some (genHeaders [] (cd.fullConversationHeadersOnly.getD []) env.idStream).2.1 }).filter (fun r => strLike ("bubbleId:" ++ oldId ++ ":") r.1) :=
        List.mem_filter.mpr ⟨assocGet_mem hkv1get, hrowpfx⟩
      have hrwf : ∀ x ∈ (assocSet env.globalKV ("composerData:" ++ newId) { cd with composerId := some newId, fullConversationHeadersOnly := some (genHeaders [] (cd.fullConversationHeadersOnly.getD []) env.idStream).2.1 }).filter (fun r => strLike ("bubbleId:" ++ oldId ++ ":") r.1), ∃ b2, x.1 = "bubbleId:" ++ oldId ++ ":" ++ b2 ∧ ':' ∉ b2.data ∧ b2 ≠ "" := by
        intro x hx
        have hx1 := List.mem_filter.mp hx
        rcases mem_assocSet hx1.1 with hg | hcomp
        · exact hrowswf x hg hx1.2
        · exfalso
          have hxp : strLike ("bubbleId:" ++ oldId ++ ":") x.1 = true := hx1.2
          rw [hcomp] at hxp
          rw [strLike_bub_composer] at hxp
          cases hxp
      have hrknd : (((assocSet env.globalKV ("composerData:" ++ newId) { cd with composerId := some newId, fullConversationHeadersOnly := some (genHeaders [] (cd.fullConversationHeadersOnly.getD []) env.idStream).2.1 }).filter (fun r => strLike ("bubbleId:" ++ oldId ++ ":") r.1)).map Prod.fst).Nodup := by
        exact List.Nodup.sublist ((List.filter_sublist _).map Prod.fst)
          (assocSet_keys_nodup ("composerData:" ++ newId) { cd with composerId := some newId, fullConversationHeadersOnly := some (genHeaders [] (cd.fullConversationHeadersOnly.getD []) env.idStream).2.1 } hknd)
      exact copyBubbles_duplicates newId oldId hnewc holdc _ _ _ _ b nb bv
        hvalsnd hmap1 hrowmem hrwf hrknd hbc hbne
  · -- old bubble rows untouched
    intro k hk
    rw [copyBubbles_kv_outside newId _ _ _ _ _
      (strLike_old_ne_newKey k holdc hnewc hneid hk)]
    refine assocGet_set_ne _ _ _ _ ?_
    intro hkc
    have hkp : strLike ("bubbleId:" ++ oldId ++ ":") ("composerData:" ++ newId)
        = true := hkc ▸ hk
    rw [strLike_bub_composer] at hkp
    cases hkp
  · -- the original composer row untouched
    rw [copyBubbles_kv_outside newId _ _ _ _ _
      (fun x => composer_ne_bubKey oldId newId x)]
    rw [assocGet_set_ne _ _ _ _ (fun hh => hneid (composerKey_inj hh))]
    exact hcd


/-- Fixture global composer row: one header referencing content item `b1`. -/
def cdG : GVal := ⟨some "oldc", none, some [⟨some "b1", 7⟩], 3⟩

/-- Fixture global bubble row for content item `b1`. -/
def bvG : GVal := ⟨none, some "b1", none, 4⟩

/-- Fixture environment with a populated global store. -/
def envG : Env :=
  { home := "/h", workspaces := [], dbs := [], globalExists := true,
    globalKV := [("composerData:oldc", cdG), ("bubbleId:oldc:b1", bvG)],
    idStream := [] }

/-- Witness for C8 at a concrete global store. -/
theorem C8_content_replication_witness :
    (∀ h ∈ cdG.fullConversationHeadersOnly.getD [], ∀ b, h.bubbleId = some b →
      ':' ∉ b.data → b ≠ "" →
      ∃ nb,
        assocGet (copyBubbleDataInGlobalStorage envG "oldc" "newc").1 b
          = some nb ∧
        (∃ cd2, assocGet
            (copyBubbleDataInGlobalStorage envG "oldc" "newc").2.globalKV
            ("composerData:" ++ "newc") = some cd2 ∧
          { h with bubbleId := some nb } ∈
            cd2.fullConversationHeadersOnly.getD []) ∧
        (∀ bv, assocGet envG.globalKV ("bubbleId:" ++ "oldc" ++ ":" ++ b)
            = some bv →
          assocGet (copyBubbleDataInGlobalStorage envG "oldc" "newc").2.globalKV
              ("bubbleId:" ++ "newc" ++ ":" ++ nb)
            = some { bv with bubbleId := some nb })) ∧
    (∀ k, strLike ("bubbleId:" ++ "oldc" ++ ":") k = true →
      assocGet (copyBubbleDataInGlobalStorage envG "oldc" "newc").2.globalKV k
        = assocGet envG.globalKV k) ∧
    (assocGet (copyBubbleDataInGlobalStorage envG "oldc" "newc").2.globalKV
        ("composerData:" ++ "oldc")
      = assocGet envG.globalKV ("composerData:" ++ "oldc")) := by
  refine C8_content_replication envG "oldc" "newc" cdG rfl (by decide)
    (by decide) (by decide) (by decide) (by decide) ?_ (by decide) (by decide)
  intro x hx hpfx
  simp only [envG, List.mem_cons, List.not_mem_nil, or_false] at hx
  rcases hx with rfl | rfl
  · exact absurd hpfx (by decide)
  · exact ⟨"b1", by decide, by decide, by decide⟩


end Cntx
